import Mathlib

/-!
# Blogging platform pages

A shallow embedding of the page handlers of the blogging platform
(`pages/blog_write.jsx`, `pages/profile/index.js`, `pages/profile/[username].js`).

* JavaScript strings are `String`s, scanned as `List Char`.
* The document store, the object store and the record of the calls a handler
  makes are the fields of `World`.
* Whatever the handlers cannot decide themselves (who is signed in, which backend
  call fails, the clock, the download URL of an object) is a field of `Env`.
* A handler reads the component state of the render that created it and queues
  state updates: it is a function `Env → World → State → World × State` whose
  reads all go to the argument state.
-/

set_option autoImplicit false

namespace Blog

/-! ## JavaScript strings -/

/-- `String.prototype.startsWith`: `p` is an initial segment of `s`. -/
def startsWith : List Char → List Char → Bool
  | [], _ => true
  | _ :: _, [] => false
  | a :: p, b :: s => a == b && startsWith p s

/-- The code points `String.prototype.trim` strips: WhiteSpace and LineTerminator. -/
def isJsWhiteSpace (c : Char) : Bool :=
  let n := c.toNat
  n == 0x09 || n == 0x0A || n == 0x0B || n == 0x0C || n == 0x0D || n == 0x20 ||
  n == 0xA0 || n == 0x1680 || (0x2000 ≤ n && n ≤ 0x200A) || n == 0x2028 ||
  n == 0x2029 || n == 0x202F || n == 0x205F || n == 0x3000 || n == 0xFEFF

/-- `String.prototype.trim`. -/
def jsTrim (s : String) : String :=
  String.mk ((s.data.dropWhile isJsWhiteSpace).reverse.dropWhile isJsWhiteSpace).reverse

/-- Truthiness of a JavaScript string: every string but the empty one. -/
def truthy (s : String) : Bool := s != ""

/-- Truthiness of a value that is `null` or a string. -/
def truthyOpt : Option String → Bool
  | none => false
  | some s => truthy s

/-- The text `pat` occurs in `s` (at some position). -/
def occursIn (pat : List Char) : List Char → Bool
  | [] => startsWith pat []
  | c :: cs => startsWith pat (c :: cs) || occursIn pat cs

/-- Splits `s` around the first occurrence of `pat`: the text before it and the text
after it, or `none` when `pat` does not occur. -/
def splitAtFirst (pat : List Char) : List Char → Option (List Char × List Char)
  | [] => if startsWith pat [] then some ([], []) else none
  | c :: cs =>
    if startsWith pat (c :: cs) then some ([], (c :: cs).drop pat.length)
    else match splitAtFirst pat cs with
      | some (before, after) => some (c :: before, after)
      | none => none

/-- The replacement text of `String.prototype.replace` for a string pattern
(`GetSubstitution` without captures): `$$` is a dollar sign, `$&` the matched text,
a dollar sign followed by a backtick the text before the match, a dollar sign followed
by an apostrophe the text after it; every other character stands for itself (so does a
dollar sign before any other character, there being no capture to refer to). -/
def getSubstitution (matched before after : List Char) : List Char → List Char
  | [] => []
  | c :: rest =>
    if c = '$' then
      match rest with
      | [] => ['$']
      | d :: rest2 =>
        if d = '$' then '$' :: getSubstitution matched before after rest2
        else if d = '&' then matched ++ getSubstitution matched before after rest2
        else if d = Char.ofNat 96 then before ++ getSubstitution matched before after rest2
        else if d = Char.ofNat 39 then after ++ getSubstitution matched before after rest2
        else '$' :: d :: getSubstitution matched before after rest2
    else c :: getSubstitution matched before after rest

/-- `s.replace(pat, repl)` with a string pattern: only the first occurrence of `pat`
is replaced, and `s` is returned as it is when there is none. -/
def jsReplace (s pat repl : List Char) : List Char :=
  match splitAtFirst pat s with
  | none => s
  | some (before, after) => before ++ getSubstitution pat before after repl ++ after

/-! ## The regular expression `/<img[^>]+src="([^">]+)"/g` -/

/-- The class `[^">]`. -/
def isSrcChar (c : Char) : Bool := c != '"' && c != '>'

/-- `([^">]+)"` at the head of `s`: the captured group and the number of characters
matched. The group is greedy and its class excludes the quote, so it ends at the first
character outside the class, which has to be the quote. -/
def matchSrcValue (s : List Char) : Option (List Char × Nat) :=
  match s.dropWhile isSrcChar with
  | c :: _ =>
    if c = '"' ∧ s.takeWhile isSrcChar ≠ [] then
      some (s.takeWhile isSrcChar, (s.takeWhile isSrcChar).length + 1)
    else none
  | [] => none

/-- `src="([^">]+)"` at the head of `s`. -/
def matchSrcAttr (s : List Char) : Option (List Char × Nat) :=
  if startsWith ['s', 'r', 'c', '=', '"'] s then
    match matchSrcValue (s.drop 5) with
    | some (v, n) => some (v, n + 5)
    | none => none
  else none

/-- `[^>]*src="([^">]+)"` at the head of `s`. The star is greedy: the longest run of
characters other than `>` is tried first, then the shorter ones. -/
def matchGreedy : List Char → Option (List Char × Nat)
  | [] => none
  | c :: cs =>
    if c = '>' then matchSrcAttr (c :: cs)
    else match matchGreedy cs with
      | some (v, n) => some (v, n + 1)
      | none => matchSrcAttr (c :: cs)

/-- The whole expression `<img[^>]+src="([^">]+)"` at the head of `s`: the captured
`src` value and the length of the match. -/
def matchImg (s : List Char) : Option (List Char × Nat) :=
  match s with
  | '<' :: 'i' :: 'm' :: 'g' :: c :: cs =>
    if c = '>' then none
    else match matchGreedy cs with
      | some (v, n) => some (v, n + 5)
      | none => none
  | _ => none

/-- The successive results of `imgTagRegex.exec(htmlContent)`: the captured group of
every match, leftmost first, each search starting where the previous match ended.
`skip` counts the characters that still belong to the previous match. -/
def scanSrcs : List Char → Nat → List (List Char)
  | [], _ => []
  | _ :: cs, skip + 1 => scanSrcs cs skip
  | c :: cs, 0 =>
    match matchImg (c :: cs) with
    | some (v, n) => v :: scanSrcs cs (n - 1)
    | none => scanSrcs cs 0

/-- The `src` values the `while` loop of `processContentImages` visits. -/
def imgSrcs (html : List Char) : List (List Char) := scanSrcs html 0

/-- The scheme of an embedded image. -/
def dataImage : List Char := "data:image/".data

/-- The embedded images of a markup: the `src` values the loop visits that start with
`data:image/`, in the order of the visit. -/
def dataSrcs (html : List Char) : List (List Char) :=
  (imgSrcs html).filter (startsWith dataImage)

/-! ## The document store, the object store and the calls of a handler -/

/-- A document of the `blogs` and of the `drafts` collection. -/
structure PostData where
  title : String
  content : String
  hashtags : List String
  userId : String
  timestamp : Nat
  deriving DecidableEq, Repr

/-- A document of the `users` collection. The fields the pages read with a default
(`|| ""`, `|| 0`) and the `username`, which registration does not seed, may be missing. -/
structure UserData where
  uid : String
  name : String
  email : String
  username : Option String
  bio : Option String
  profileImage : Option String
  followersCount : Option Int
  followingCount : Option Int
  deriving DecidableEq, Repr

/-- A document of the `follows` collection. -/
structure FollowData where
  followerId : String
  followeeId : String
  deriving DecidableEq, Repr

/-- A call a handler makes: to the document store, to the object store, to the helpers
of `firebaseutils`, or to the browser. A call is recorded when it is made, whether or
not it succeeds. -/
inductive Call where
  | addDoc (collection : String)
  | setDoc (collection id : String)
  | updateDoc (collection id : String)
  | deleteDoc (collection id : String)
  | getDoc (collection id : String)
  | getDocs (collection field : String)
  | uploadString (path : String)
  | uploadBytes (path : String)
  | deleteObject (url : String)
  | getDownloadURL (path : String)
  | followUser (followee follower : String)
  | unfollowUser (followee follower : String)
  | alert (message : String)
  | routerPush (path : String)
  | setTimeout (ms : Nat)
  deriving DecidableEq, Repr

/-- The world outside the component: the four collections (documents keyed by their
identifier), the object store (contents keyed by their path) and the calls made so far. -/
structure World where
  blogs : List (String × PostData)
  drafts : List (String × PostData)
  users : List (String × UserData)
  follows : List (String × FollowData)
  objects : List (String × String)
  calls : List Call
  deriving DecidableEq, Repr

/-- What a handler cannot decide: the signed-in user, the clock, the download URL the
object store gives an object, and which calls fail. -/
structure Env where
  /-- The `uid` of `auth.currentUser`, `none` when `auth.currentUser` is `null`. -/
  currentUser : Option String
  /-- The result of `isLoggedIn()`. -/
  loggedIn : Bool
  /-- The value `Date.now()` has when the `k`-th embedded image is uploaded. -/
  now : Nat → Nat
  /-- The value of `new Date()`. -/
  newDate : Nat
  /-- The download URL of the object stored at a path. -/
  urlOf : String → String
  /-- The message of a failing backend call. -/
  errorMessage : String
  /-- Whether `uploadString` fails for the `k`-th embedded image. -/
  uploadStringFails : Nat → Bool
  /-- Whether `getDownloadURL` fails for the `k`-th embedded image. -/
  getDownloadURLFails : Nat → Bool
  addDocFails : Bool
  updateDocFails : Bool
  deleteDocFails : Bool
  getDocsFails : Bool
  deleteObjectFails : Bool
  uploadBytesFails : Bool
  profileURLFails : Bool
  /-- The write of `followUser` that fails, counted from 0, if one does. -/
  followUserFailsAt : Option Nat
  /-- The write of `unfollowUser` that fails, counted from 0, if one does. -/
  unfollowUserFailsAt : Option Nat

/-- Records a call. -/
def World.call (w : World) (c : Call) : World := { w with calls := w.calls ++ [c] }

/-- The document store alone: what the collections hold. -/
def World.db (w : World) :
    List (String × PostData) × List (String × PostData) ×
    List (String × UserData) × List (String × FollowData) :=
  (w.blogs, w.drafts, w.users, w.follows)

/-- The identifiers of the documents of a collection. -/
def docIds {α : Type} (c : List (String × α)) : List String := c.map Prod.fst

/-- The result of `getDoc`: the document with identifier `id`, if there is one. -/
def docGet {α : Type} : List (String × α) → String → Option α
  | [], _ => none
  | d :: c, id => if d.1 = id then some d.2 else docGet c id

/-- The identifier `addDoc` gives a new document. The store draws it at random; here it
is a string longer than every identifier of the collection, hence a new one. -/
def autoId {α : Type} (c : List (String × α)) : String :=
  String.mk (List.replicate ((docIds c).foldr (fun i n => max i.length n) 0 + 1) 'A')

/-- The collection after `addDoc`. -/
def docAdd {α : Type} (c : List (String × α)) (data : α) : List (String × α) :=
  c ++ [(autoId c, data)]

/-- The collection after `updateDoc` with all the fields of a document: the document
with identifier `id` is overwritten. The call fails (`none`) when there is no such
document. -/
def docUpdate {α : Type} (c : List (String × α)) (id : String) (f : α → α) :
    Option (List (String × α)) :=
  if (docIds c).contains id then
    some (c.map (fun d => if d.1 == id then (d.1, f d.2) else d))
  else none

/-- The collection after `setDoc`: the document is overwritten or created. -/
def docSet {α : Type} (c : List (String × α)) (id : String) (data : α) :
    List (String × α) :=
  if (docIds c).contains id then c.map (fun d => if d.1 == id then (d.1, data) else d)
  else c ++ [(id, data)]

/-- The collection after `deleteDoc`, which succeeds whether or not the document
exists. -/
def docDelete {α : Type} (c : List (String × α)) (id : String) : List (String × α) :=
  c.filter (fun d => d.1 != id)

/-! ## The blog editor (`pages/blog_write.jsx`) -/

namespace BlogEditor

/-- The value of the `hashtagInput` state: the text of the input field, or the array
the draft loader puts there. -/
inductive HashtagInput where
  | text (s : String)
  | tags (l : List String)
  deriving DecidableEq, Repr

/-- The state of the editor component, with the `draftId` search parameter of the page
(`none` when the URL has none). -/
structure State where
  title : String
  content : String
  hashtagInput : HashtagInput
  hashtags : List String
  draftId : Option String
  isSavingDraft : Bool
  isSubmittingBlog : Bool
  error : String
  deriving DecidableEq, Repr

/-- The loop of `processContentImages` over the `src` values still to visit. `html` is
the argument of the function, `updated` the variable `updatedContent`, `k` the number of
embedded images uploaded so far. The result is the world, the message passed to
`setError` if there was one, and the returned string. -/
def processLoop (env : Env) (html : List Char) :
    List (List Char) → Nat → World → List Char → World × Option String × List Char
  | [], _, w, updated => (w, none, updated)
  | imgSrc :: rest, k, w, updated =>
    if startsWith dataImage imgSrc then
      let path := "images/" ++ toString (env.now k)
      let w1 := w.call (.uploadString path)
      if env.uploadStringFails k then
        (w1, some "Failed to upload images. Please try again.", html)
      else
        let w2 := { w1 with objects := docSet w1.objects path (String.mk imgSrc) }
        let w3 := w2.call (.getDownloadURL path)
        if env.getDownloadURLFails k then
          (w3, some "Failed to upload images. Please try again.", html)
        else
          processLoop env html rest (k + 1) w3 (jsReplace updated imgSrc (env.urlOf path).data)
    else processLoop env html rest k w updated

/-- `processContentImages(htmlContent)`: the world afterwards, the message passed to
`setError` if an upload failed, and the returned markup. -/
def processContentImages (env : Env) (w : World) (htmlContent : String) :
    World × Option String × String :=
  let r := processLoop env htmlContent.data (imgSrcs htmlContent.data) 0 w htmlContent.data
  (r.1, r.2.1, String.mk r.2.2)

/-- The state update of a `setError` that may or may not have happened. -/
def setErrorIf (st : State) : Option String → State
  | none => st
  | some e => { st with error := e }

/-- `handleSubmit`: publishes the content of the editor. -/
def handleSubmit (env : Env) (w : World) (st : State) : World × State :=
  let s1 := { st with isSubmittingBlog := true, error := "" }
  let p := processContentImages env w st.content
  let s2 := setErrorIf s1 p.2.1
  let failed (w : World) : World × State :=
    (w, { s2 with error := "Failed to submit blog. Please try again.",
                  isSubmittingBlog := false })
  match env.currentUser with
  | none => failed p.1
  | some uid =>
    let w1 := p.1.call (.addDoc "blogs")
    if env.addDocFails then failed w1
    else
      let post : PostData :=
        { title := st.title, content := p.2.2, hashtags := st.hashtags, userId := uid,
          timestamp := env.newDate }
      let w2 := { w1 with blogs := docAdd w1.blogs post }
      let published (w : World) : World × State :=
        (w.call (.alert "Blog submitted successfully!"),
         { s2 with title := "", content := "", hashtags := [], isSubmittingBlog := false })
      match st.draftId with
      | none => published w2
      | some d =>
        if truthy d then
          let w3 := w2.call (.deleteDoc "drafts" d)
          if env.deleteDocFails then failed w3
          else published { w3 with drafts := docDelete w3.drafts d }
        else published w2

/-- `handleSaveDraft`: saves the content of the editor as a draft. -/
def handleSaveDraft (env : Env) (w : World) (st : State) : World × State :=
  if !truthy (jsTrim st.title) && !truthy (jsTrim st.content) && st.hashtags.length == 0 then
    (w.call (.setTimeout 3000), { st with error := "Cannot save an empty draft." })
  else
    let s1 := { st with isSavingDraft := true, error := "" }
    let p := processContentImages env w st.content
    let s2 := setErrorIf s1 p.2.1
    let failed (w : World) : World × State :=
      (w.call (.setTimeout 3000),
       { s2 with error := "Failed to save draft. Please try again.", isSavingDraft := false })
    let saved (w : World) (message : String) : World × State :=
      (w.call (.alert message),
       { s2 with title := "", content := "", hashtags := [], isSavingDraft := false })
    match env.currentUser with
    | none => failed p.1
    | some uid =>
      let draftData : PostData :=
        { title := st.title, content := p.2.2, hashtags := st.hashtags, userId := uid,
          timestamp := env.newDate }
      let create : World × State :=
        let w1 := p.1.call (.addDoc "drafts")
        if env.addDocFails then failed w1
        else saved { w1 with drafts := docAdd w1.drafts draftData } "Draft saved successfully!"
      match st.draftId with
      | none => create
      | some d =>
        if truthy d then
          let w1 := p.1.call (.updateDoc "drafts" d)
          if env.updateDocFails then failed w1
          else match docUpdate w1.drafts d (fun _ => draftData) with
            | none => failed w1
            | some drafts => saved { w1 with drafts := drafts } "Draft updated successfully!"
        else create

/-- `handleDeleteDraft`: deletes the draft the editor was opened with. -/
def handleDeleteDraft (env : Env) (w : World) (st : State) : World × State :=
  match st.draftId with
  | none => (w, st)
  | some d =>
    if truthy d then
      let w1 := w.call (.deleteDoc "drafts" d)
      if env.deleteDocFails then
        (w1.call (.setTimeout 3000),
         { st with error := "Failed to delete draft. Please try again." })
      else
        ((({ w1 with drafts := docDelete w1.drafts d }).call (.routerPush "/profile")).call
            (.alert "Draft deleted successfully!"),
         { st with title := "", content := "", hashtags := [] })
    else (w, st)

end BlogEditor

/-- The message of the `TypeError` raised by reading property `prop` of `null`. -/
def nullReadMessage (prop : String) : String :=
  "Cannot read properties of null (reading '" ++ prop ++ "')"

/-! ## The profile page of the signed-in user (`pages/profile/index.js`) -/

namespace Profile

/-- The file chosen in the file input: its name and its contents. -/
structure ImageFile where
  name : String
  content : String
  deriving DecidableEq, Repr

/-- The state of the component. -/
structure State where
  currentUser : Option String
  user : Option UserData
  name : String
  bio : String
  username : Option String
  profileImage : String
  isEditing : Bool
  error : String
  imageFile : Option ImageFile
  userBlogs : List (String × PostData)
  isUsernameAvailable : Bool
  followersCount : Int
  followingCount : Int
  userDrafts : List (String × PostData)
  deriving DecidableEq, Repr

/-- The objects left after `deleteObject` of the object with download URL `url`. -/
def deleteByURL (env : Env) (objects : List (String × String)) (url : String) :
    List (String × String) :=
  objects.filter (fun o => env.urlOf o.1 != url)

/-- `uploadProfileImage`: the world afterwards and the returned download URL
(`none` for `undefined`), or the message of the exception raised. A failure to delete
the previous image is caught and ignored. -/
def uploadProfileImage (env : Env) (w : World) (st : State) :
    World × Except String (Option String) :=
  match st.imageFile with
  | none => (w, .ok none)
  | some file =>
    match env.currentUser with
    | none => (w, .error (nullReadMessage "uid"))
    | some uid =>
      let path := "profileImages/" ++ uid ++ "/" ++ file.name
      let w1 :=
        if truthy st.profileImage then
          let wd := w.call (.deleteObject st.profileImage)
          if env.deleteObjectFails then wd
          else { wd with objects := deleteByURL env wd.objects st.profileImage }
        else w
      let w2 := w1.call (.uploadBytes path)
      if env.uploadBytesFails then (w2, .error env.errorMessage)
      else
        let w3 := { w2 with objects := docSet w2.objects path file.content }
        let w4 := w3.call (.getDownloadURL path)
        if env.profileURLFails then (w4, .error env.errorMessage)
        else (w4, .ok (some (env.urlOf path)))

/-- `checkUsernameAvailability(newUsername)`: the world afterwards and the returned
boolean. Building the query raises for an `undefined` value, and every exception is
caught and answered with `false`. -/
def checkUsernameAvailability (env : Env) (w : World) (st : State)
    (newUsername : Option String) : World × Bool :=
  match newUsername with
  | none => (w, false)
  | some n =>
    let w1 := w.call (.getDocs "users" "username")
    if env.getDocsFails then (w1, false)
    else
      match st.user with
      | none => (w1, false)
      | some u =>
        (w1, u.username == some n ||
             (w1.users.filter (fun d => d.2.username == some n)).isEmpty)

/-- `handleSave`: saves the edited profile. -/
def handleSave (env : Env) (w : World) (st : State) : World × State :=
  let failed (w : World) (message : String) : World × State :=
    (w, { st with error := "Failed to update profile: " ++ message })
  match env.currentUser with
  | none => failed w (nullReadMessage "uid")
  | some currentUserUid =>
    let c := checkUsernameAvailability env w st st.username
    if !c.2 then
      (c.1.call (.setTimeout 3000), { st with error := "Username is already taken." })
    else
      let up : World × Except String (Option String) :=
        match st.imageFile with
        | none => (c.1, .ok (some st.profileImage))
        | some _ => uploadProfileImage env c.1 st
      match up.2 with
      | .error message => failed up.1 message
      | .ok updatedProfileImage =>
        let w1 := up.1.call (.updateDoc "users" currentUserUid)
        if env.updateDocFails then failed w1 env.errorMessage
        else
          let edit (u : UserData) : UserData :=
            { u with name := st.name, bio := some st.bio,
                     profileImage := updatedProfileImage, username := st.username }
          match docUpdate w1.users currentUserUid edit with
          | none => failed w1 env.errorMessage
          | some users =>
            ({ w1 with users := users },
             { st with user := st.user.map edit, isEditing := false })

/-- `handleEdit`: enters edit mode. -/
def handleEdit (_env : Env) (w : World) (st : State) : World × State :=
  (w, { st with isEditing := true })

/-- `handleCancel`: leaves edit mode and restores the fields from `user`. With `user`
still `null` the handler raises at `user.name`, after `setIsEditing(false)`. -/
def handleCancel (_env : Env) (w : World) (st : State) : World × State :=
  match st.user with
  | none => (w, { st with isEditing := false })
  | some u =>
    (w, { st with isEditing := false, name := u.name, bio := u.bio.getD "",
                  username := u.username, imageFile := none })

end Profile

/-! ## The profile page of another user (`pages/profile/[username].js`) -/

namespace UserProfile

/-- The gap between neighbouring JavaScript numbers at a natural number `a`: one below
`2 ^ 53`, doubling with every further binary digit of `a` (the first argument bounds the
number of halvings; `a` itself is enough). -/
def ulpOf : Nat → Nat → Nat
  | 0, _ => 1
  | fuel + 1, a => if a < 2 ^ 53 then 1 else 2 * ulpOf fuel (a / 2)

/-- The JavaScript number nearest to an integer. The counters of the page are whole
numbers held as JavaScript numbers (binary64): the magnitude is rounded to the nearest
multiple of the gap at it, that is to 53 significant bits, a tie going to the even
neighbour. The bound of the exponent, beyond `2 ^ 1023`, is left out. -/
def toDouble (x : Int) : Int :=
  let ulp := ulpOf x.natAbs x.natAbs
  let q := x.natAbs / ulp
  let r := x.natAbs % ulp
  let n := if 2 * r < ulp then q else if ulp < 2 * r then q + 1
    else if q % 2 = 0 then q else q + 1
  if x < 0 then -((n * ulp : Nat) : Int) else ((n * ulp : Nat) : Int)

/-- The state of the component; `isFollowing` is `none` while it is `null`. The two
counters are whole numbers; `handleFollow` and `handleUnfollow` add and subtract one in
the arithmetic of JavaScript numbers (`toDouble`). -/
structure State where
  user : Option UserData
  name : String
  bio : String
  username : Option String
  profileImage : String
  userBlogs : List (String × PostData)
  followersCount : Int
  followingCount : Int
  error : String
  isFollowing : Option Bool
  showUnfollowConfirm : Bool
  deriving DecidableEq, Repr

/-- The identifier of the relation record of a follower and a followee. -/
def followId (followerId followeeId : String) : String := followerId ++ "_" ++ followeeId

/-- Adds `n` to the followers counter of a user record. -/
def addFollowers (n : Int) (u : UserData) : UserData :=
  { u with followersCount := some (u.followersCount.getD 0 + n) }

/-- Adds `n` to the following counter of a user record. -/
def addFollowing (n : Int) (u : UserData) : UserData :=
  { u with followingCount := some (u.followingCount.getD 0 + n) }

/-- Applies `f` to the user records with identifier `id`. -/
def editUser (users : List (String × UserData)) (id : String) (f : UserData → UserData) :
    List (String × UserData) :=
  users.map (fun d => if d.1 == id then (d.1, f d.2) else d)

/-- Modelled from the spec: `followUser` of `firebase/firebaseutils`, which is not among
the sources. It creates the relation record keyed by the pair and increments the
counters of both parties, as three separate writes; a write that fails raises and
leaves the earlier writes in place. The result is the world and the message of the
exception, if one was raised. -/
def followUser (env : Env) (w : World) (followeeId : String) (_username : Option String)
    (followerId : String) (_followersCount _followingCount : Int) : World × Option String :=
  let w0 := w.call (.followUser followeeId followerId)
  if env.followUserFailsAt = some 0 then (w0, some env.errorMessage)
  else
    let edge : FollowData := { followerId := followerId, followeeId := followeeId }
    let w1 := { w0 with follows := docSet w0.follows (followId followerId followeeId) edge }
    if env.followUserFailsAt = some 1 then (w1, some env.errorMessage)
    else
      let w2 := { w1 with users := editUser w1.users followeeId (addFollowers 1) }
      if env.followUserFailsAt = some 2 then (w2, some env.errorMessage)
      else ({ w2 with users := editUser w2.users followerId (addFollowing 1) }, none)

/-- Modelled from the spec: `unfollowUser` of `firebase/firebaseutils`, which is not
among the sources. It deletes the relation record keyed by the pair and decrements the
counters of both parties, as three separate writes; a write that fails raises and
leaves the earlier writes in place. -/
def unfollowUser (env : Env) (w : World) (followeeId : String) (_username : Option String)
    (followerId : String) (_followersCount _followingCount : Int) : World × Option String :=
  let w0 := w.call (.unfollowUser followeeId followerId)
  if env.unfollowUserFailsAt = some 0 then (w0, some env.errorMessage)
  else
    let w1 := { w0 with follows := docDelete w0.follows (followId followerId followeeId) }
    if env.unfollowUserFailsAt = some 1 then (w1, some env.errorMessage)
    else
      let w2 := { w1 with users := editUser w1.users followeeId (addFollowers (-1)) }
      if env.unfollowUserFailsAt = some 2 then (w2, some env.errorMessage)
      else ({ w2 with users := editUser w2.users followerId (addFollowing (-1)) }, none)

/-- `handleFollow`: the handler of the Follow / Unfollow button. -/
def handleFollow (env : Env) (w : World) (st : State) : World × State :=
  if env.loggedIn then
    if st.isFollowing = some true then (w, { st with showUnfollowConfirm := true })
    else
      match st.user, env.currentUser with
      | none, _ => (w, { st with error := "Error following user: " ++ nullReadMessage "uid" })
      | some _, none =>
        (w, { st with error := "Error following user: " ++ nullReadMessage "uid" })
      | some u, some viewer =>
        let r := followUser env w u.uid st.username viewer st.followersCount st.followingCount
        match r.2 with
        | some message => (r.1, { st with error := "Error following user: " ++ message })
        | none =>
          (r.1, { st with isFollowing := some true,
                          followersCount := toDouble (st.followersCount + 1),
                          followingCount := toDouble (st.followingCount + 1) })
  else (w.call (.routerPush "/login"), st)

/-- `handleUnfollow`: the handler of the Yes button of the confirmation box. -/
def handleUnfollow (env : Env) (w : World) (st : State) : World × State :=
  match st.user, env.currentUser with
  | none, _ => (w, { st with error := "Error unfollowing user: " ++ nullReadMessage "uid" })
  | some _, none =>
    (w, { st with error := "Error unfollowing user: " ++ nullReadMessage "uid" })
  | some u, some viewer =>
    let r := unfollowUser env w u.uid st.username viewer st.followersCount st.followingCount
    match r.2 with
    | some message => (r.1, { st with error := "Error unfollowing user: " ++ message })
    | none =>
      (r.1, { st with isFollowing := some false,
                      followersCount := toDouble (st.followersCount - 1),
                      followingCount := toDouble (st.followingCount - 1),
                      showUnfollowConfirm := false })

/-- `cancelUnfollow`: the handler of the No button of the confirmation box. -/
def cancelUnfollow (_env : Env) (w : World) (st : State) : World × State :=
  (w, { st with showUnfollowConfirm := false })

end UserProfile

/-! ## Assumptions on the environment, and sample inputs -/

/-- No backend call fails. -/
def Env.reliable (env : Env) : Prop :=
  (∀ k, env.uploadStringFails k = false) ∧ (∀ k, env.getDownloadURLFails k = false) ∧
  env.addDocFails = false ∧ env.updateDocFails = false ∧ env.deleteDocFails = false ∧
  env.getDocsFails = false ∧ env.deleteObjectFails = false ∧ env.uploadBytesFails = false ∧
  env.profileURLFails = false ∧ env.followUserFailsAt = none ∧
  env.unfollowUserFailsAt = none

/-- An environment in which user `u1` is signed in and every call succeeds. -/
def sampleEnv : Env :=
  { currentUser := some "u1", loggedIn := true, now := fun k => 1000 + k, newDate := 2000,
    urlOf := fun path => "https://cdn/" ++ path, errorMessage := "unavailable",
    uploadStringFails := fun _ => false, getDownloadURLFails := fun _ => false,
    addDocFails := false, updateDocFails := false, deleteDocFails := false,
    getDocsFails := false, deleteObjectFails := false, uploadBytesFails := false,
    profileURLFails := false, followUserFailsAt := none, unfollowUserFailsAt := none }

/-- The same environment with nobody signed in (`auth.currentUser` is `null`). -/
def signedOutEnv : Env := { sampleEnv with currentUser := none, loggedIn := false }

/-- A world with one draft `d1` of user `u1` and two user records. -/
def sampleWorld : World :=
  { blogs := [], follows := [], objects := [], calls := [],
    drafts := [("d1", { title := "Old", content := "<p>old</p>", hashtags := ["#a"],
                        userId := "u1", timestamp := 1 })],
    users := [("u1", { uid := "u1", name := "Ann", email := "ann@x.org",
                       username := some "ann", bio := some "hi", profileImage := none,
                       followersCount := some 0, followingCount := some 0 }),
              ("u2", { uid := "u2", name := "Bob", email := "bob@x.org",
                       username := some "bob", bio := none, profileImage := none,
                       followersCount := some 3, followingCount := some 1 })] }

/-- An editor opened with draft `d1`, holding a title and a paragraph. -/
def sampleEditor : BlogEditor.State :=
  { title := "Hello", content := "<p>text</p>", hashtagInput := .text "", hashtags := ["#a"],
    draftId := some "d1", isSavingDraft := false, isSubmittingBlog := false, error := "" }

/-- An editor opened without a draft, holding only blanks. -/
def blankEditor : BlogEditor.State :=
  { title := "  ", content := "\n", hashtagInput := .text "", hashtags := [],
    draftId := none, isSavingDraft := false, isSubmittingBlog := false, error := "" }

/-- A markup with two embedded images. -/
def twoImages : String :=
  "<p>a</p><img src=\"data:image/png;base64,AAAA\"><img src=\"data:image/gif;base64,BBBB\">"

/-- An environment in which the upload of the second embedded image fails. -/
def secondUploadFails : Env := { sampleEnv with uploadStringFails := fun k => k == 1 }

namespace Profile

/-- `handleImageUpload`: the handler of the file input, `file` being
`event.target.files[0]` (`none` when no file was chosen). -/
def handleImageUpload (file : Option ImageFile) (_env : Env) (w : World) (st : State) :
    World × State :=
  (w, { st with imageFile := file })

/-- The `onChange` handler of the username input: it stores the text and the answer of
`checkUsernameAvailability`. -/
def onUsernameChange (newUsername : String) (env : Env) (w : World) (st : State) :
    World × State :=
  let c := checkUsernameAvailability env w st (some newUsername)
  (c.1, { st with username := some newUsername, isUsernameAvailable := c.2 })

/-- The `onChange` handler of the bio text area. -/
def onBioChange (newBio : String) (_env : Env) (w : World) (st : State) : World × State :=
  (w, { st with bio := newBio })

/-- An edit made in the form: typing in the username input, typing in the bio text
area, choosing a file. -/
inductive Edit where
  | username (text : String)
  | bio (text : String)
  | image (file : Option ImageFile)
  deriving DecidableEq, Repr

/-- The handler an edit triggers. -/
def applyEdit (env : Env) (ws : World × State) : Edit → World × State
  | .username text => onUsernameChange text env ws.1 ws.2
  | .bio text => onBioChange text env ws.1 ws.2
  | .image file => handleImageUpload file env ws.1 ws.2

/-- A sequence of edits, each handled in the state the previous one left. -/
def applyEdits (env : Env) (edits : List Edit) (ws : World × State) : World × State :=
  edits.foldl (applyEdit env) ws

end Profile

/-- The profile page of user `u1` in edit mode, as loaded from the sample world. -/
def sampleProfile : Profile.State :=
  { currentUser := some "u1",
    user := some { uid := "u1", name := "Ann", email := "ann@x.org", username := some "ann",
                   bio := some "hi", profileImage := none, followersCount := some 0,
                   followingCount := some 0 },
    name := "Ann", bio := "hi", username := some "ann", profileImage := "", isEditing := true,
    error := "", imageFile := none, userBlogs := [], isUsernameAvailable := true,
    followersCount := 0, followingCount := 0, userDrafts := [] }

/-- The page of user `u2` seen by a viewer who does not follow `u2`. -/
def samplePublicProfile : UserProfile.State :=
  { user := some { uid := "u2", name := "Bob", email := "bob@x.org", username := some "bob",
                   bio := none, profileImage := none, followersCount := some 3,
                   followingCount := some 1 },
    name := "Bob", bio := "", username := some "bob", profileImage := "", userBlogs := [],
    followersCount := 3, followingCount := 1, error := "", isFollowing := some false,
    showUnfollowConfirm := false }

/-- The sample profile page after typing the username `bob`, which user `u2` holds. -/
def renamingProfile : Profile.State := { sampleProfile with username := some "bob" }

/-- The number of positions of `s` at which the text `pat` starts. -/
def countOcc (pat : List Char) : List Char → Nat
  | [] => if startsWith pat [] then 1 else 0
  | c :: cs => (if startsWith pat (c :: cs) then 1 else 0) + countOcc pat cs

/-- A markup in which the payload of the first embedded image also occurs as text,
ahead of the image. -/
def textThenImages : String :=
  "<p>data:image/png;base64,AAAA</p><img src=\"data:image/png;base64,AAAA\"><img src=\"data:image/gif;base64,BBBB\">"

/-- An environment in which both uploads happen within the same millisecond. -/
def sameMillisecond : Env := { sampleEnv with now := fun _ => 1000 }

/-- No occurrence of `pat` in `a ++ s` starts inside `a`. -/
def noStartIn (pat s : List Char) : List Char → Bool
  | [] => true
  | c :: a => !startsWith pat (c :: a ++ s) && noStartIn pat s a

/-! ## Registration (`pages/register.jsx`) -/

namespace Register

/-- An exception: its `code` property, when it has one, and its message. -/
structure Failure where
  code : Option String
  message : String
  deriving DecidableEq, Repr

/-- The user of a credential of the identity provider. -/
structure AuthUser where
  uid : String
  displayName : String
  email : String
  deriving DecidableEq, Repr

/-- The state of the component. -/
structure State where
  username : String
  email : String
  password : String
  error : String
  deriving DecidableEq, Repr

/-- The outcome of the calls of the registration handlers: the `uid` of the user
`createUserWithEmailAndPassword` creates or the exception it raises, the user
`signInWithPopup` returns or the exception it raises, and the exception of
`updateProfile`, `setDoc` and `getDoc`, if they raise one. -/
structure Env where
  createUser : Except Failure String
  updateProfile : Option Failure
  setDoc : Option Failure
  signInWithPopup : Except Failure AuthUser
  getDoc : Option Failure

/-- The `catch` block of `signupHandler`: the message set for an exception with the
given `code`. -/
def signupErrorMessage (code : Option String) : String :=
  if code = some "auth/weak-password" then "Password must be at least 6 characters long."
  else if code = some "auth/email-already-in-use" then
    "This email is already registered. Please use another email."
  else if code = some "auth/invalid-email" then "Invalid email format. Please check your email."
  else "An unexpected error occurred. Please try again."

/-- The record `signupHandler` writes for a new user. -/
def signupRecord (uid : String) (st : State) : UserData :=
  { uid := uid, name := st.username, email := st.email, username := none, bio := none,
    profileImage := none, followersCount := some 0, followingCount := some 0 }

/-- The record `signInWithGoogle` writes for a new user. -/
def googleRecord (user : AuthUser) : UserData :=
  { uid := user.uid, name := user.displayName, email := user.email, username := none,
    bio := none, profileImage := none, followersCount := none, followingCount := none }

/-- `signupHandler`: registration with email and password. -/
def signupHandler (env : Env) (w : World) (st : State) : World × State :=
  if !truthy st.email || !truthy st.password || !truthy st.username then (w, st)
  else
    match env.createUser with
    | .error e => (w, { st with error := signupErrorMessage e.code })
    | .ok uid =>
      match env.updateProfile with
      | some e => (w, { st with error := signupErrorMessage e.code })
      | none =>
        let w1 := w.call (.setDoc "users" uid)
        match env.setDoc with
        | some e => (w1, { st with error := signupErrorMessage e.code })
        | none => ({ w1 with users := docSet w1.users uid (signupRecord uid st) }, st)

/-- `signInWithGoogle`: registration through the popup of the identity provider. Every
exception is caught and only logged. -/
def signInWithGoogle (env : Env) (w : World) (st : State) : World × State :=
  match env.signInWithPopup with
  | .error _ => (w, st)
  | .ok user =>
    let w1 := w.call (.getDoc "users" user.uid)
    match env.getDoc with
    | some _ => (w1, st)
    | none =>
      match docGet w1.users user.uid with
      | some _ => (w1, st)
      | none =>
        let w2 := w1.call (.setDoc "users" user.uid)
        match env.setDoc with
        | some _ => (w2, st)
        | none => ({ w2 with users := docSet w2.users user.uid (googleRecord user) }, st)

end Register

namespace BlogEditor

/-- The state of the editor when the component is mounted on a page with the given
`draftId` search parameter. -/
def initialState (draftId : Option String) : State :=
  { title := "", content := "", hashtagInput := .text "", hashtags := [], draftId := draftId,
    isSavingDraft := false, isSubmittingBlog := false, error := "" }

/-- The hashtag without its leading `#`, if it has one. -/
def stripHash (tag : String) : String :=
  match tag.data with
  | '#' :: rest => String.mk rest
  | _ => tag

/-- `fetchDraft`, the effect run when the component is mounted: it loads the draft the
page was opened with. `getDocFails` tells whether the read of the draft fails. -/
def fetchDraft (getDocFails : Bool) (env : Env) (w : World) (st : State) : World × State :=
  match st.draftId with
  | none => (w, st)
  | some d =>
    if truthy d then
      let w1 := w.call (.getDoc "drafts" d)
      if getDocFails then
        (w1, { st with error := "Failed to fetch draft: " ++ env.errorMessage })
      else
        match docGet w1.drafts d with
        | some draftData =>
          let hashtagContent := draftData.hashtags.map stripHash
          let s1 := { st with title := draftData.title, content := draftData.content }
          (w1, { s1 with hashtagInput := .tags hashtagContent })
        | none => (w1, { st with error := "Draft not found." })
    else (w, st)

end BlogEditor

namespace UserProfile

/-- The state of the component when it is mounted. -/
def initialState : State :=
  { user := none, name := "", bio := "", username := some "", profileImage := "",
    userBlogs := [], followersCount := 0, followingCount := 0, error := "",
    isFollowing := none, showUnfollowConfirm := false }

/-- The call of the profile load that fails. -/
inductive LoadFailure where
  | userQuery
  | blogsQuery
  | followLookup
  deriving DecidableEq, Repr

/-- The callback of `onAuthStateChanged`: the load of the profile named by the
`username` parameter of the route, for the viewer `currentUser` (`none` when nobody is
signed in). `failure` names the call that fails, if one does. -/
def loadProfile (usernameParam currentUser : Option String) (failure : Option LoadFailure)
    (env : Env) (w : World) (st : State) : World × State :=
  let caught (w : World) (s : State) : World × State :=
    (w, { s with error := "Error: " ++ env.errorMessage })
  match usernameParam with
  | none => (w, { st with error := "No username parameter provided." })
  | some target =>
    if truthy target then
      let w1 := w.call (.getDocs "users" "username")
      if failure = some .userQuery then caught w1 st
      else
        match w1.users.find? (fun d => d.2.username == some target) with
        | none => (w1, { st with error := "User not found." })
        | some d =>
          let userData := d.2
          if truthy userData.uid then
            let bio := userData.bio.getD ""
            let image := userData.profileImage.getD ""
            let s0 := { st with user := some userData, name := userData.name, bio := bio }
            let s1 := { s0 with username := userData.username, profileImage := image }
            let w2 := w1.call (.getDocs "blogs" "userId")
            if failure = some .blogsQuery then caught w2 s1
            else
              let blogs := w2.blogs.filter (fun b => b.2.userId == userData.uid)
              let followers := userData.followersCount.getD 0
              let following := userData.followingCount.getD 0
              let s2 := { s1 with userBlogs := blogs, followersCount := followers }
              let s3 := { s2 with followingCount := following }
              match currentUser with
              | some viewer =>
                let w3 := w2.call (.getDoc "follows" (followId viewer userData.uid))
                if failure = some .followLookup then caught w3 s3
                else
                  let exists_ := (docGet w3.follows (followId viewer userData.uid)).isSome
                  (w3, { s3 with isFollowing := some exists_ })
              | none => (w2, { s3 with isFollowing := some false })
          else (w1, { st with error := "User data is missing UID." })
    else (w, { st with error := "No username parameter provided." })

/-- An event of the page: the load of a profile, or a press of the Follow / Unfollow
button, of the Yes button or of the No button of the confirmation box, each in its own
environment. -/
inductive Event where
  | load (usernameParam currentUser : Option String) (failure : Option LoadFailure)
      (env : Env)
  | follow (env : Env)
  | unfollow (env : Env)
  | cancel (env : Env)

/-- The handler an event runs. -/
def step (ws : World × State) : Event → World × State
  | .load usernameParam currentUser failure env =>
    loadProfile usernameParam currentUser failure env ws.1 ws.2
  | .follow env => handleFollow env ws.1 ws.2
  | .unfollow env => handleUnfollow env ws.1 ws.2
  | .cancel env => cancelUnfollow env ws.1 ws.2

/-- A sequence of events, each handled in the state the previous one left. -/
def run (events : List Event) (ws : World × State) : World × State :=
  events.foldl step ws

/-- Every load of the sequence runs while the confirmation box is closed. -/
def loadsWhileClosed : List Event → World × State → Prop
  | [], _ => True
  | .load usernameParam currentUser failure env :: events, ws =>
    ws.2.showUnfollowConfirm = false ∧
      loadsWhileClosed events (step ws (.load usernameParam currentUser failure env))
  | e :: events, ws => loadsWhileClosed events (step ws e)

end UserProfile

/-- The sample world in which user `u1` follows user `u2`. -/
def followingWorld : World :=
  { sampleWorld with follows := [("u1_u2", { followerId := "u1", followeeId := "u2" })] }

/-- A markup with the same embedded image in two image tags. -/
def sameImageTwice : String :=
  "<img src=\"data:image/png;base64,AAAA\"><img src=\"data:image/png;base64,AAAA\">"

/-- An environment in which the delete of a document fails. -/
def deleteFails : Env := { sampleEnv with deleteDocFails := true }

/-- The sample editor holding the markup with two embedded images. -/
def imageEditor : BlogEditor.State := { sampleEditor with content := twoImages }

/-- A registration form filled in. -/
def sampleForm : Register.State :=
  { username := "Cy", email := "cy@x.org", password := "12345", error := "" }

/-- The identity provider rejects the password as too short. -/
def weakPassword : Register.Env :=
  { createUser := .error { code := some "auth/weak-password", message := "weak" },
    updateProfile := none, setDoc := none,
    signInWithPopup := .error { code := none, message := "closed" }, getDoc := none }

/-- Every call of the registration succeeds, for the identity `u1`. -/
def registersAsU1 : Register.Env :=
  { createUser := .ok "u1", updateProfile := none, setDoc := none,
    signInWithPopup := .ok { uid := "u1", displayName := "Ann G", email := "ann@x.org" },
    getDoc := none }

/-- Every call of the registration succeeds, for the new identity `u3`. -/
def registersAsU3 : Register.Env :=
  { createUser := .ok "u3", updateProfile := none, setDoc := none,
    signInWithPopup := .ok { uid := "u3", displayName := "Cy G", email := "cy@x.org" },
    getDoc := none }

namespace BlogEditor

/-- The text of the hashtag `addHashtag` builds, the template literal
`#${hashtagInput}`: an array is rendered as its elements joined by commas. -/
def hashtagOf : HashtagInput → String
  | .text s => "#" ++ s
  | .tags l => "#" ++ ",".intercalate l

/-- Truthiness of the `hashtagInput` state: an array is truthy, a string is unless it
is empty. -/
def inputTruthy : HashtagInput → Bool
  | .text s => truthy s
  | .tags _ => true

/-- `addHashtag`: the handler of the Add button. -/
def addHashtag (_env : Env) (w : World) (st : State) : World × State :=
  if inputTruthy st.hashtagInput && !st.hashtags.contains (hashtagOf st.hashtagInput) then
    (w, { st with hashtags := st.hashtags ++ [hashtagOf st.hashtagInput],
                  hashtagInput := .text "" })
  else (w, st)

/-- `removeHashtag(hashtagToRemove)`: the handler of the button of a hashtag. -/
def removeHashtag (hashtagToRemove : String) (_env : Env) (w : World) (st : State) :
    World × State :=
  (w, { st with hashtags := st.hashtags.filter (fun hashtag => hashtag != hashtagToRemove) })

/-- The `onChange` handler of the hashtag input. -/
def onHashtagInputChange (text : String) (_env : Env) (w : World) (st : State) :
    World × State :=
  (w, { st with hashtagInput := .text text })

/-- An operation on the hashtag list: typing a text into the input and pressing Add,
or removing a hashtag. -/
inductive HashtagOp where
  | add (input : String)
  | remove (hashtag : String)
  deriving DecidableEq, Repr

/-- The handlers an operation runs. -/
def applyHashtagOp (env : Env) (ws : World × State) : HashtagOp → World × State
  | .add input =>
    addHashtag env (onHashtagInputChange input env ws.1 ws.2).1
      (onHashtagInputChange input env ws.1 ws.2).2
  | .remove hashtag => removeHashtag hashtag env ws.1 ws.2

/-- A sequence of operations, each run in the state the previous one left. -/
def applyHashtagOps (env : Env) (ops : List HashtagOp) (ws : World × State) :
    World × State :=
  ops.foldl (applyHashtagOp env) ws

end BlogEditor

/-- The sample profile page with the file `a.png` chosen in the file input. -/
def pictureProfile : Profile.State :=
  { sampleProfile with imageFile := some { name := "a.png", content := "PNG" } }

namespace Profile

/-- The sample page after choosing a picture and saving. -/
def savedWithPicture : World × State := handleSave sampleEnv sampleWorld pictureProfile

/-- Then the form is opened again and cancelled, which clears the selected file. -/
def reopenedAndCancelled : World × State :=
  handleCancel sampleEnv (handleEdit sampleEnv savedWithPicture.1 savedWithPicture.2).1
    (handleEdit sampleEnv savedWithPicture.1 savedWithPicture.2).2

/-- Then the form is opened once more and saved without a newly selected picture. -/
def savedAgain : World × State :=
  handleSave sampleEnv (handleEdit sampleEnv reopenedAndCancelled.1 reopenedAndCancelled.2).1
    (handleEdit sampleEnv reopenedAndCancelled.1 reopenedAndCancelled.2).2

end Profile

/-- The page of user `u2`, shown with `2 ^ 53` followers, seen by a viewer who does not
follow `u2`. -/
def largeCountProfile : UserProfile.State :=
  { samplePublicProfile with followersCount := 9007199254740992 }

/-- A markup whose first image tag has a `data-src` attribute behind its `src`. -/
def srcThenDataSrc : String :=
  "<img src=\"data:image/png;base64,AAAA\" data-src=\"x.png\"><img src=\"data:image/gif;base64,BBBB\">"

/-- A markup with the same embedded image in two image tags, the first of which has a
`data-src` attribute behind its `src`. -/
def sameImageDataSrc : String :=
  "<img src=\"data:image/png;base64,AAAA\" data-src=\"x.png\"><img src=\"data:image/png;base64,AAAA\">"

/-- A markup with the same embedded image as text and in two image tags. -/
def textThenSameImage : String :=
  "<p>data:image/png;base64,AAAA</p><img src=\"data:image/png;base64,AAAA\"><img src=\"data:image/png;base64,AAAA\">"

/-- Nobody is signed in and the upload of the second embedded image fails. -/
def signedOutUploadFails : Env := { signedOutEnv with uploadStringFails := fun k => k == 1 }

/-- User `u1` is signed in, the upload of the second embedded image fails and so do the
creation and the update of a document. -/
def uploadAndWriteFail : Env :=
  { secondUploadFails with addDocFails := true, updateDocFails := true }

end Blog

/-! # Theorems -/

namespace Blog

/-! ## The document store -/

section store
variable {α : Type}

theorem length_le_maxLen (ids : List String) (i : String) (h : i ∈ ids) :
    i.length ≤ ids.foldr (fun i n => max i.length n) 0 := by
  induction ids with
  | nil => simp at h
  | cons a t ih =>
    simp only [List.foldr_cons]
    rcases List.mem_cons.mp h with rfl | h
    · exact le_max_left _ _
    · exact le_trans (ih h) (le_max_right _ _)

/-- The identifier of a new document is not the identifier of an existing one. -/
theorem autoId_fresh (c : List (String × α)) : autoId c ∉ docIds c := by
  intro h
  have h1 := length_le_maxLen _ _ h
  have h2 : (autoId c).length = (docIds c).foldr (fun i n => max i.length n) 0 + 1 := by
    show (List.replicate _ 'A').length = _
    exact List.length_replicate _ _
  omega

theorem docIds_docDelete (c : List (String × α)) (d : String) :
    d ∉ docIds (docDelete c d) := by
  simp [docIds, docDelete]

theorem docGet_eq_none_of_not_mem (c : List (String × α)) (d : String) (h : d ∉ docIds c) :
    docGet c d = none := by
  induction c with
  | nil => rfl
  | cons a t ih =>
    simp only [docIds, List.map_cons, List.mem_cons, not_or] at h
    have ha : ¬ a.1 = d := fun e => h.1 e.symm
    simp only [docGet, ha, if_false]
    exact ih h.2

theorem docGet_isSome_of_mem (c : List (String × α)) (d : String) (h : d ∈ docIds c) :
    ∃ x, docGet c d = some x := by
  induction c with
  | nil => simp [docIds] at h
  | cons a t ih =>
    by_cases ha : a.1 = d
    · exact ⟨a.2, by simp [docGet, ha]⟩
    · simp only [docIds, List.map_cons, List.mem_cons] at h
      rcases h with h | h
      · exact absurd h.symm ha
      · obtain ⟨x, hx⟩ := ih h
        exact ⟨x, by simp [docGet, ha, hx]⟩

theorem docGet_docDelete_ne (c : List (String × α)) (d i : String) (h : i ≠ d) :
    docGet (docDelete c d) i = docGet c i := by
  induction c with
  | nil => rfl
  | cons a t ih =>
    by_cases ha : a.1 = d
    · have h1 : docDelete (a :: t) d = docDelete t d := by simp [docDelete, ha]
      have hai : ¬ a.1 = i := by rw [ha]; exact fun e => h e.symm
      rw [h1, ih]; simp [docGet, hai]
    · have h1 : docDelete (a :: t) d = a :: docDelete t d := by simp [docDelete, ha]
      rw [h1]
      by_cases hai : a.1 = i
      · simp [docGet, hai]
      · simp only [docGet, hai, if_false]; exact ih

theorem docUpdate_of_mem (c : List (String × α)) (d : String) (f : α → α)
    (h : d ∈ docIds c) :
    docUpdate c d f = some (c.map (fun e => if e.1 == d then (e.1, f e.2) else e)) := by
  simp [docUpdate, h]

theorem docIds_map_update (c : List (String × α)) (d : String) (f : α → α) :
    docIds (c.map (fun e => if e.1 == d then (e.1, f e.2) else e)) = docIds c := by
  simp only [docIds, List.map_map]
  apply List.map_congr_left
  intro e _
  by_cases he : e.1 = d <;> simp [he]

theorem docGet_map_update (c : List (String × α)) (d i : String) (f : α → α) :
    docGet (c.map (fun e => if e.1 == d then (e.1, f e.2) else e)) i =
      if i = d then (docGet c i).map f else docGet c i := by
  induction c with
  | nil => simp [docGet]
  | cons a t ih =>
    simp only [List.map_cons, docGet]
    by_cases hd : a.1 = d
    · by_cases ha : a.1 = i
      · have hid : i = d := ha.symm.trans hd
        simp [hd, ha, hid]
      · simp only [hd, beq_self_eq_true, if_true, ha]
        rw [hd] at ha
        simp only [ha, if_false]
        exact ih
    · by_cases ha : a.1 = i
      · have hid : ¬ i = d := fun e => hd (ha.trans e)
        simp [hd, ha, hid]
      · simp only [beq_iff_eq, hd, if_false, ha]
        simpa using ih

theorem docGet_append_of_mem (c c2 : List (String × α)) (i : String) (h : i ∈ docIds c) :
    docGet (c ++ c2) i = docGet c i := by
  induction c with
  | nil => simp [docIds] at h
  | cons a t ih =>
    by_cases ha : a.1 = i
    · simp [docGet, ha]
    · simp only [docIds, List.map_cons, List.mem_cons] at h
      rcases h with h | h
      · exact absurd h.symm ha
      · simp only [List.cons_append, docGet, ha, if_false]; exact ih h

theorem docGet_append_of_not_mem (c c2 : List (String × α)) (i : String)
    (h : i ∉ docIds c) : docGet (c ++ c2) i = docGet c2 i := by
  induction c with
  | nil => rfl
  | cons a t ih =>
    simp only [docIds, List.map_cons, List.mem_cons, not_or] at h
    have ha : ¬ a.1 = i := fun e => h.1 e.symm
    simp only [List.cons_append, docGet, ha, if_false]; exact ih h.2

end store

/-! ## JavaScript strings -/

/-- A string of white space trims to the empty string. -/
theorem jsTrim_blank (s : String) (h : ∀ c ∈ s.data, isJsWhiteSpace c = true) :
    jsTrim s = "" := by
  have h1 : s.data.dropWhile isJsWhiteSpace = [] := by
    rw [List.dropWhile_eq_nil_iff]; exact h
  simp [jsTrim, h1]

theorem truthy_iff (s : String) : truthy s = true ↔ s ≠ "" := by simp [truthy]

/-! ## The blog editor -/

namespace BlogEditor

/-- The loop of `processContentImages` leaves the document store alone. -/
theorem processLoop_db (env : Env) (html : List Char) (srcs : List (List Char)) :
    ∀ (k : Nat) (w : World) (upd : List Char),
      (processLoop env html srcs k w upd).1.db = w.db := by
  induction srcs with
  | nil => intro k w upd; rfl
  | cons a t ih =>
    intro k w upd
    simp only [processLoop]
    split
    · split
      · rfl
      · split
        · rfl
        · rw [ih]; rfl
    · exact ih k w upd

theorem processContentImages_db (env : Env) (w : World) (html : String) :
    (processContentImages env w html).1.db = w.db := processLoop_db _ _ _ _ _ _

theorem processContentImages_blogs (env : Env) (w : World) (html : String) :
    (processContentImages env w html).1.blogs = w.blogs :=
  congrArg Prod.fst (processContentImages_db env w html)

theorem processContentImages_drafts (env : Env) (w : World) (html : String) :
    (processContentImages env w html).1.drafts = w.drafts :=
  congrArg (fun x => x.2.1) (processContentImages_db env w html)

/-- C1: when the title and the content are empty or white space only and there is no
hashtag, `handleSaveDraft` leaves the document store and the object store as they were,
makes no call but the one arming the three-second timer (no draft is created or
updated, no image upload is attempted), and sets the error to
'Cannot save an empty draft.', the rest of the state staying as it was. -/
theorem handleSaveDraft_empty (env : Env) (w : World) (st : State)
    (ht : ∀ c ∈ st.title.data, isJsWhiteSpace c = true)
    (hc : ∀ c ∈ st.content.data, isJsWhiteSpace c = true)
    (hh : st.hashtags = []) :
    (handleSaveDraft env w st).1.db = w.db ∧
    (handleSaveDraft env w st).1.objects = w.objects ∧
    (handleSaveDraft env w st).1.calls = w.calls ++ [Call.setTimeout 3000] ∧
    (handleSaveDraft env w st).2 = { st with error := "Cannot save an empty draft." } := by
  have h : handleSaveDraft env w st =
      (w.call (.setTimeout 3000), { st with error := "Cannot save an empty draft." }) := by
    simp [handleSaveDraft, jsTrim_blank _ ht, jsTrim_blank _ hc, hh, truthy]
  rw [h]
  exact ⟨rfl, rfl, rfl, rfl⟩

/-- C1 at an editor holding two spaces as title and a line break as content. -/
theorem handleSaveDraft_empty_witness :
    (handleSaveDraft sampleEnv sampleWorld blankEditor).1.db = sampleWorld.db ∧
    (handleSaveDraft sampleEnv sampleWorld blankEditor).1.objects = sampleWorld.objects ∧
    (handleSaveDraft sampleEnv sampleWorld blankEditor).1.calls =
      sampleWorld.calls ++ [Call.setTimeout 3000] ∧
    (handleSaveDraft sampleEnv sampleWorld blankEditor).2 =
      { blankEditor with error := "Cannot save an empty draft." } :=
  handleSaveDraft_empty sampleEnv sampleWorld blankEditor (by decide) (by decide) rfl

/-- C2, as the claim states it, fails when nobody is signed in: with every backend call
succeeding and the editor opened with the stored draft `d1`, `handleSubmit` raises at
`auth.currentUser.uid`, adds no post, leaves the draft and shows the submit error. -/
theorem handleSubmit_signed_out :
    signedOutEnv.reliable ∧ sampleEditor.draftId = some "d1" ∧
    "d1" ∈ docIds sampleWorld.drafts ∧
    (handleSubmit signedOutEnv sampleWorld sampleEditor).1.blogs = sampleWorld.blogs ∧
    "d1" ∈ docIds (handleSubmit signedOutEnv sampleWorld sampleEditor).1.drafts ∧
    (handleSubmit signedOutEnv sampleWorld sampleEditor).2.error =
      "Failed to submit blog. Please try again." := by
  refine ⟨?_, rfl, by decide, by decide, by decide, by decide⟩
  simp [Env.reliable, signedOutEnv, sampleEnv]

/-- C2, amended: when a user is signed in, no backend call fails and the editor was
opened with the draft identifier `d`, `handleSubmit` adds exactly one record to the
`blogs` collection, under a new identifier and holding the title, the externalized
content, the hashtags, the user and the date, and afterwards the `drafts` collection
holds no record with identifier `d`. -/
theorem handleSubmit_publishes (env : Env) (w : World) (st : State) (d uid : String)
    (hu : env.currentUser = some uid) (hr : env.reliable)
    (hd : st.draftId = some d) (hne : d ≠ "") :
    (handleSubmit env w st).1.blogs =
      w.blogs ++ [(autoId w.blogs,
        { title := st.title, content := (processContentImages env w st.content).2.2,
          hashtags := st.hashtags, userId := uid, timestamp := env.newDate })] ∧
    autoId w.blogs ∉ docIds w.blogs ∧
    (handleSubmit env w st).1.blogs.length = w.blogs.length + 1 ∧
    d ∉ docIds (handleSubmit env w st).1.drafts ∧
    docGet (handleSubmit env w st).1.drafts d = none := by
  obtain ⟨_, _, ha, _, hdel, _⟩ := hr
  have ht : truthy d = true := (truthy_iff d).mpr hne
  have h : (handleSubmit env w st).1.blogs =
      w.blogs ++ [(autoId w.blogs,
        { title := st.title, content := (processContentImages env w st.content).2.2,
          hashtags := st.hashtags, userId := uid, timestamp := env.newDate })] ∧
      (handleSubmit env w st).1.drafts = docDelete w.drafts d := by
    simp [handleSubmit, hu, ha, hdel, hd, ht, World.call, docAdd, processContentImages_blogs,
      processContentImages_drafts]
  refine ⟨h.1, autoId_fresh _, ?_, ?_, ?_⟩
  · rw [h.1]; simp
  · rw [h.2]; exact docIds_docDelete _ _
  · rw [h.2]; exact docGet_eq_none_of_not_mem _ _ (docIds_docDelete _ _)

/-- The sample environment is reliable. -/
theorem sampleEnv_reliable : sampleEnv.reliable := by
  simp [Env.reliable, sampleEnv]

/-- C2, amended, at the sample editor: one post more and draft `d1` gone. -/
theorem handleSubmit_publishes_witness :
    (handleSubmit sampleEnv sampleWorld sampleEditor).1.blogs.length =
      sampleWorld.blogs.length + 1 ∧
    "d1" ∈ docIds sampleWorld.drafts ∧
    docGet (handleSubmit sampleEnv sampleWorld sampleEditor).1.drafts "d1" = none :=
  ⟨(handleSubmit_publishes sampleEnv sampleWorld sampleEditor "d1" "u1" rfl
      sampleEnv_reliable rfl (by decide)).2.2.1,
   by decide,
   (handleSubmit_publishes sampleEnv sampleWorld sampleEditor "d1" "u1" rfl
      sampleEnv_reliable rfl (by decide)).2.2.2.2⟩

end BlogEditor

/-! ## Image externalization -/

section store
variable {α : Type}
theorem docIds_docSet_self (c : List (String × α)) (i : String) (x : α) :
    i ∈ docIds (docSet c i x) := by
  unfold docSet
  split
  · next h =>
    have h1 : i ∈ docIds c := by simpa using h
    have h2 : docIds (c.map (fun d => if d.1 == i then (d.1, x) else d)) = docIds c := by
      simp only [docIds, List.map_map]
      apply List.map_congr_left
      intro e _
      by_cases he : e.1 = i <;> simp [he]
    rw [h2]; exact h1
  · simp [docIds]

theorem docIds_docSet_of_mem (c : List (String × α)) (i j : String) (x : α)
    (h : j ∈ docIds c) : j ∈ docIds (docSet c i x) := by
  unfold docSet
  split
  · have h2 : docIds (c.map (fun d => if d.1 == i then (d.1, x) else d)) = docIds c := by
      simp only [docIds, List.map_map]
      apply List.map_congr_left
      intro e _
      by_cases he : e.1 = i <;> simp [he]
    rw [h2]; exact h
  · simp only [docIds, List.map_append, List.mem_append]
    exact Or.inl h
end store

namespace BlogEditor

theorem processLoop_filter (env : Env) (html : List Char) (srcs : List (List Char)) :
    ∀ (k : Nat) (w : World) (upd : List Char),
      processLoop env html srcs k w upd =
        processLoop env html (srcs.filter (startsWith dataImage)) k w upd := by
  induction srcs with
  | nil => intro k w upd; rfl
  | cons a t ih =>
    intro k w upd
    by_cases ha : startsWith dataImage a = true
    · simp only [List.filter_cons, ha, if_true, processLoop]
      split
      · rfl
      · split
        · rfl
        · exact ih _ _ _
    · simp only [List.filter_cons, ha, processLoop]
      exact ih _ _ _

theorem processContentImages_eq (env : Env) (w : World) (html : String) :
    processContentImages env w html =
      ((processLoop env html.data (dataSrcs html.data) 0 w html.data).1,
       (processLoop env html.data (dataSrcs html.data) 0 w html.data).2.1,
       String.mk (processLoop env html.data (dataSrcs html.data) 0 w html.data).2.2) := by
  simp only [processContentImages, dataSrcs]
  rw [processLoop_filter]

/-- A failing upload among those still to come makes the loop return its argument. -/
theorem processLoop_failure (env : Env) (html : List Char) (srcs : List (List Char)) :
    ∀ (k0 : Nat) (w : World) (upd : List Char) (k : Nat), k0 ≤ k →
      k < k0 + (srcs.filter (startsWith dataImage)).length →
      (env.uploadStringFails k = true ∨ env.getDownloadURLFails k = true) →
      (processLoop env html srcs k0 w upd).2 =
        (some "Failed to upload images. Please try again.", html) := by
  induction srcs with
  | nil => intro k0 w upd k h1 h2; simp at h2; omega
  | cons a t ih =>
    intro k0 w upd k h1 h2 hf
    by_cases ha : startsWith dataImage a = true
    · simp only [List.filter_cons, ha, if_true, List.length_cons] at h2
      simp only [processLoop, ha, if_true]
      by_cases hu : env.uploadStringFails k0 = true
      · simp [hu]
      · by_cases hg : env.getDownloadURLFails k0 = true
        · simp [hu, hg]
        · simp only [hu, hg, if_false]
          have hk : k0 + 1 ≤ k := by
            rcases Nat.lt_or_ge k0 k with h | h
            · exact h
            · have : k = k0 := le_antisymm h h1
              subst this
              rcases hf with hf | hf
              · exact absurd hf hu
              · exact absurd hf hg
          exact ih (k0 + 1) _ _ k hk (by omega) hf
    · simp only [List.filter_cons, ha] at h2
      simp only [processLoop, ha]
      exact ih k0 w upd k h1 h2 hf

/-- C4: if the upload of an embedded image, or the lookup of its download URL, fails
(for the `k`-th embedded image of the markup, whatever `k` is and however many earlier
images were uploaded), `processContentImages` returns exactly the markup it was given,
and reports the failure through `setError`. -/
theorem processContentImages_failure (env : Env) (w : World) (html : String) (k : Nat)
    (hk : k < (dataSrcs html.data).length)
    (hf : env.uploadStringFails k = true ∨ env.getDownloadURLFails k = true) :
    (processContentImages env w html).2.2 = html ∧
    (processContentImages env w html).2.1 =
      some "Failed to upload images. Please try again." := by
  have h := processLoop_failure env html.data (imgSrcs html.data) 0 w html.data k
    (Nat.zero_le _) (by simpa [dataSrcs] using hk) hf
  simp [processContentImages, h]

/-- C4 at a markup with two embedded images, the second upload failing. -/
theorem processContentImages_failure_witness :
    (dataSrcs twoImages.data).length = 2 ∧
    (processContentImages secondUploadFails sampleWorld twoImages).2.2 = twoImages ∧
    (processContentImages secondUploadFails sampleWorld twoImages).2.1 =
      some "Failed to upload images. Please try again." :=
  ⟨by decide, processContentImages_failure secondUploadFails sampleWorld twoImages 1
      (by decide) (Or.inl rfl)⟩

/-- An embedded image starts with the scheme `data:image/`. -/
theorem mem_dataSrcs_startsWith (html p : List Char) (h : p ∈ dataSrcs html) :
    startsWith dataImage p = true := by
  simp only [dataSrcs, List.mem_filter] at h
  exact h.2

/-- C5, as the claim states it, is false: there is no markup with two embedded images
for which, the first upload succeeding and the second failing, `processContentImages`
returns anything but the markup it was given; no substitution survives. -/
theorem no_mixed_document :
    ¬ ∃ (env : Env) (w : World) (html : String),
        (dataSrcs html.data).length = 2 ∧
        env.uploadStringFails 0 = false ∧ env.getDownloadURLFails 0 = false ∧
        (env.uploadStringFails 1 = true ∨ env.getDownloadURLFails 1 = true) ∧
        (processContentImages env w html).2.2 ≠ html := by
  rintro ⟨env, w, html, hn, _, _, hf, hne⟩
  apply hne
  have h := processLoop_failure env html.data (imgSrcs html.data) 0 w html.data 1
    (Nat.zero_le _) (by simp only [dataSrcs] at hn; omega) hf
  simp [processContentImages, h]

/-- C5, amended: for a markup with two embedded images, when the first upload succeeds
and the second fails, `processContentImages` returns the markup it was given, both
embedded payloads in place and no download URL substituted, and reports the failure;
what remains of the first image is the object stored under its path. -/
theorem processContentImages_second_fails (env : Env) (w : World) (html : String)
    (p q : List Char) (hs : dataSrcs html.data = [p, q])
    (hu : env.uploadStringFails 0 = false) (hg : env.getDownloadURLFails 0 = false)
    (hf : env.uploadStringFails 1 = true ∨ env.getDownloadURLFails 1 = true) :
    (processContentImages env w html).2.2 = html ∧
    (processContentImages env w html).2.1 =
      some "Failed to upload images. Please try again." ∧
    ("images/" ++ toString (env.now 0)) ∈ docIds (processContentImages env w html).1.objects ∧
    Call.getDownloadURL ("images/" ++ toString (env.now 0)) ∈
      (processContentImages env w html).1.calls := by
  have hp : startsWith dataImage p = true :=
    mem_dataSrcs_startsWith html.data p (by rw [hs]; simp)
  have hq : startsWith dataImage q = true :=
    mem_dataSrcs_startsWith html.data q (by rw [hs]; simp)
  rw [processContentImages_eq, hs]
  by_cases h1 : env.uploadStringFails 1 = true
  · simp only [processLoop, hp, hq, hu, hg, h1, if_true]
    refine ⟨rfl, rfl, ?_, ?_⟩
    · exact docIds_docSet_self _ _ _
    · simp [World.call]
  · have h2 : env.getDownloadURLFails 1 = true := hf.resolve_left h1
    simp only [processLoop, hp, hq, hu, hg, h1, h2, if_true]
    refine ⟨rfl, rfl, ?_, ?_⟩
    · exact docIds_docSet_of_mem _ _ _ _ (docIds_docSet_self _ _ _)
    · simp [World.call]

/-- C5, amended, at the markup with two embedded images. -/
theorem processContentImages_second_fails_witness :
    dataSrcs twoImages.data =
      ["data:image/png;base64,AAAA".data, "data:image/gif;base64,BBBB".data] ∧
    (processContentImages secondUploadFails sampleWorld twoImages).2.2 = twoImages ∧
    "images/1000" ∈ docIds (processContentImages secondUploadFails sampleWorld twoImages).1.objects :=
  ⟨by decide,
   (processContentImages_second_fails secondUploadFails sampleWorld twoImages
      "data:image/png;base64,AAAA".data "data:image/gif;base64,BBBB".data
      (by decide) rfl rfl (Or.inl rfl)).1,
   (processContentImages_second_fails secondUploadFails sampleWorld twoImages
      "data:image/png;base64,AAAA".data "data:image/gif;base64,BBBB".data
      (by decide) rfl rfl (Or.inl rfl)).2.2.1⟩

end BlogEditor

/-! ## Follow and unfollow -/

section store
variable {α : Type}

theorem docGet_docSet_self (c : List (String × α)) (i : String) (x : α) :
    docGet (docSet c i x) i = some x := by
  unfold docSet
  split
  · next h =>
    have h1 : i ∈ docIds c := by simpa using h
    obtain ⟨y, hy⟩ := docGet_isSome_of_mem c i h1
    have := docGet_map_update c i i (fun _ => x)
    simp only [if_true, hy, Option.map_some'] at this
    exact this
  · next h =>
    have h1 : i ∉ docIds c := by simpa using h
    rw [docGet_append_of_not_mem _ _ _ h1]
    simp [docGet]
end store

namespace UserProfile

/-- Below `2 ^ 53` neighbouring JavaScript numbers are one apart. -/
theorem ulpOf_of_lt (a : Nat) (h : a < 2 ^ 53) : ulpOf a a = 1 := by
  cases a with
  | zero => rfl
  | succ k => rw [ulpOf, if_pos h]

/-- An integer of magnitude up to `2 ^ 53` is a JavaScript number. -/
theorem toDouble_of_le (x : Int) (h : x.natAbs ≤ 2 ^ 53) : toDouble x = x := by
  by_cases hlt : x.natAbs < 2 ^ 53
  · have hu := ulpOf_of_lt _ hlt
    unfold toDouble
    simp only [hu, Nat.div_one, Nat.mod_one, Nat.mul_one]
    have h0 : 2 * 0 < 1 := by decide
    rw [if_pos h0]
    split <;> omega
  · have h1 : x = 9007199254740992 ∨ x = -9007199254740992 := by omega
    rcases h1 with h1 | h1 <;> rw [h1] <;> decide

/-- Adding one and subtracting it again is exact from `-(2 ^ 53)` up to `2 ^ 53 - 1`. -/
theorem toDouble_add_sub (n : Int) (h : -(2 ^ 53) ≤ n ∧ n < 2 ^ 53) :
    toDouble (toDouble (n + 1) - 1) = n := by
  have h1 : toDouble (n + 1) = n + 1 := toDouble_of_le _ (by omega)
  rw [h1]
  have h2 : n + 1 - 1 = n := by omega
  rw [h2]
  exact toDouble_of_le _ (by omega)

/-- A follow by a signed-in viewer who is not following, `followUser` succeeding. -/
theorem handleFollow_follow (env : Env) (w : World) (st : State) (u : UserData)
    (viewer : String) (hl : env.loggedIn = true) (hv : env.currentUser = some viewer)
    (hu : st.user = some u) (hnf : st.isFollowing ≠ some true)
    (hf : env.followUserFailsAt = none) :
    (handleFollow env w st).1.follows =
      docSet w.follows (followId viewer u.uid) { followerId := viewer, followeeId := u.uid } ∧
    (handleFollow env w st).2 =
      { st with isFollowing := some true,
                followersCount := toDouble (st.followersCount + 1),
                followingCount := toDouble (st.followingCount + 1) } := by
  simp [handleFollow, hl, hnf, hu, hv, followUser, hf, World.call]

/-- The button pressed by a viewer who is following only opens the confirmation. -/
theorem handleFollow_following (env : Env) (w : World) (st : State)
    (hl : env.loggedIn = true) (hf : st.isFollowing = some true) :
    handleFollow env w st = (w, { st with showUnfollowConfirm := true }) := by
  simp [handleFollow, hl, hf]

/-- A confirmed unfollow, `unfollowUser` succeeding. -/
theorem handleUnfollow_ok (env : Env) (w : World) (st : State) (u : UserData)
    (viewer : String) (hv : env.currentUser = some viewer)
    (hu : st.user = some u) (hf : env.unfollowUserFailsAt = none) :
    (handleUnfollow env w st).1.follows = docDelete w.follows (followId viewer u.uid) ∧
    (handleUnfollow env w st).2 =
      { st with isFollowing := some false,
                followersCount := toDouble (st.followersCount - 1),
                followingCount := toDouble (st.followingCount - 1),
                showUnfollowConfirm := false } := by
  simp [handleUnfollow, hu, hv, unfollowUser, hf, World.call]

/-- C6, as the claim states it, fails on a page that shows `2 ^ 53` followers: the viewer
`u1` is signed in and not following, the follow and the confirmed unfollow both succeed
and the relation record is gone, yet `followersCount` ends at `2 ^ 53 - 1`, because
`2 ^ 53 + 1` is not a JavaScript number and the follow leaves the counter at `2 ^ 53`. -/
theorem follow_then_unfollow_large_count :
    let st := largeCountProfile
    let r1 := handleFollow sampleEnv sampleWorld st
    let r2 := handleFollow sampleEnv r1.1 r1.2
    let r3 := handleUnfollow sampleEnv r2.1 r2.2
    sampleEnv.loggedIn = true ∧ sampleEnv.currentUser = some "u1" ∧
    st.isFollowing = some false ∧ st.followersCount = 9007199254740992 ∧
    sampleEnv.followUserFailsAt = none ∧ sampleEnv.unfollowUserFailsAt = none ∧
    r1.2.isFollowing = some true ∧ r1.2.error = "" ∧
    r1.2.followersCount = 9007199254740992 ∧
    r2.2.showUnfollowConfirm = true ∧
    r3.2.isFollowing = some false ∧ r3.2.error = "" ∧
    docGet r3.1.follows (followId "u1" "u2") = none ∧
    r3.2.followersCount = 9007199254740991 ∧
    r3.2.followersCount ≠ st.followersCount := by
  decide

/-- C6: from a page on which the signed-in viewer is not following and both counters lie
from `-(2 ^ 53)` up to `2 ^ 53 - 1`, a successful follow (`handleFollow`), the button
pressed again (`handleFollow` opens the confirmation) and a successful confirmed unfollow
(`handleUnfollow`) return `followersCount` and `followingCount` to their values before
the follow, leave `isFollowing` false and the confirmation closed, and leave no relation
record for the pair of the viewer and the profile owner; the record exists after the
follow. -/
theorem follow_then_unfollow (e1 e2 e3 : Env) (w : World) (st : State) (u : UserData)
    (viewer : String)
    (hl1 : e1.loggedIn = true) (hl2 : e2.loggedIn = true)
    (hv1 : e1.currentUser = some viewer) (hv3 : e3.currentUser = some viewer)
    (hu : st.user = some u) (hnf : st.isFollowing = some false)
    (hf : e1.followUserFailsAt = none) (huf : e3.unfollowUserFailsAt = none)
    (hc1 : -(2 ^ 53) ≤ st.followersCount ∧ st.followersCount < 2 ^ 53)
    (hc2 : -(2 ^ 53) ≤ st.followingCount ∧ st.followingCount < 2 ^ 53) :
    let r1 := handleFollow e1 w st
    let r2 := handleFollow e2 r1.1 r1.2
    let r3 := handleUnfollow e3 r2.1 r2.2
    (r1.2.isFollowing = some true ∧
      docGet r1.1.follows (followId viewer u.uid) =
        some { followerId := viewer, followeeId := u.uid }) ∧
    (r2.1 = r1.1 ∧ r2.2.isFollowing = some true ∧ r2.2.showUnfollowConfirm = true) ∧
    r3.2.followersCount = st.followersCount ∧ r3.2.followingCount = st.followingCount ∧
    r3.2.isFollowing = some false ∧ r3.2.showUnfollowConfirm = false ∧
    docGet r3.1.follows (followId viewer u.uid) = none := by
  intro r1 r2 r3
  have h1 := handleFollow_follow e1 w st u viewer hl1 hv1 hu (by simp [hnf]) hf
  have h1f : r1.2.isFollowing = some true := by
    show (handleFollow e1 w st).2.isFollowing = some true
    rw [h1.2]
  have h1u : r1.2.user = some u := by
    show (handleFollow e1 w st).2.user = some u
    rw [h1.2]; exact hu
  have h2 : r2 = (r1.1, { r1.2 with showUnfollowConfirm := true }) :=
    handleFollow_following e2 r1.1 r1.2 hl2 h1f
  have h2u : r2.2.user = some u := by rw [h2]; exact h1u
  have h3 := handleUnfollow_ok e3 r2.1 r2.2 u viewer hv3 h2u huf
  refine ⟨⟨h1f, ?_⟩, ⟨?_, ?_, ?_⟩, ?_, ?_, ?_, ?_, ?_⟩
  · show docGet (handleFollow e1 w st).1.follows _ = _
    rw [h1.1]; exact docGet_docSet_self _ _ _
  · rw [h2]
  · rw [h2]; exact h1f
  · rw [h2]
  · show (handleUnfollow e3 r2.1 r2.2).2.followersCount = _
    rw [h3.2, h2]
    show toDouble ((handleFollow e1 w st).2.followersCount - 1) = _
    rw [h1.2]
    exact toDouble_add_sub _ hc1
  · show (handleUnfollow e3 r2.1 r2.2).2.followingCount = _
    rw [h3.2, h2]
    show toDouble ((handleFollow e1 w st).2.followingCount - 1) = _
    rw [h1.2]
    exact toDouble_add_sub _ hc2
  · show (handleUnfollow e3 r2.1 r2.2).2.isFollowing = _
    rw [h3.2]
  · show (handleUnfollow e3 r2.1 r2.2).2.showUnfollowConfirm = _
    rw [h3.2]
  · show docGet (handleUnfollow e3 r2.1 r2.2).1.follows _ = _
    rw [h3.1]
    exact docGet_eq_none_of_not_mem _ _ (docIds_docDelete _ _)

/-- C6 at the sample page: viewer `u1`, profile owner `u2` with three followers. -/
theorem follow_then_unfollow_witness :
    (handleUnfollow sampleEnv
      (handleFollow sampleEnv (handleFollow sampleEnv sampleWorld samplePublicProfile).1
        (handleFollow sampleEnv sampleWorld samplePublicProfile).2).1
      (handleFollow sampleEnv (handleFollow sampleEnv sampleWorld samplePublicProfile).1
        (handleFollow sampleEnv sampleWorld samplePublicProfile).2).2).2.followersCount = 3 ∧
    docGet (handleFollow sampleEnv sampleWorld samplePublicProfile).1.follows "u1_u2" =
      some { followerId := "u1", followeeId := "u2" } :=
  ⟨(follow_then_unfollow sampleEnv sampleEnv sampleEnv sampleWorld samplePublicProfile
      _ "u1" rfl rfl rfl rfl rfl rfl rfl rfl (by decide) (by decide)).2.2.1,
   (follow_then_unfollow sampleEnv sampleEnv sampleEnv sampleWorld samplePublicProfile
      _ "u1" rfl rfl rfl rfl rfl rfl rfl rfl (by decide) (by decide)).1.2⟩

end UserProfile

/-! ## Saving and deleting a draft -/

namespace BlogEditor

/-- C7, as the claim states it, fails when nobody is signed in: the editor passes the
non-empty check and every backend call succeeds, yet `handleSaveDraft` raises at
`auth.currentUser.uid` and writes no draft, with or without a draft identifier. -/
theorem handleSaveDraft_signed_out :
    signedOutEnv.reliable ∧
    (!truthy (jsTrim sampleEditor.title) && !truthy (jsTrim sampleEditor.content) &&
      sampleEditor.hashtags.length == 0) = false ∧
    "d1" ∈ docIds sampleWorld.drafts ∧
    (handleSaveDraft signedOutEnv sampleWorld sampleEditor).1.drafts = sampleWorld.drafts ∧
    (handleSaveDraft signedOutEnv sampleWorld { sampleEditor with draftId := none }).1.drafts =
      sampleWorld.drafts ∧
    (handleSaveDraft signedOutEnv sampleWorld sampleEditor).2.error =
      "Failed to save draft. Please try again." := by
  refine ⟨?_, by decide, by decide, by decide, by decide, by decide⟩
  simp [Env.reliable, signedOutEnv, sampleEnv]

/-- C7, amended: when a user is signed in, the editor passes the non-empty check and no
backend call fails, `handleSaveDraft` writes the record of the title, the externalized
content, the hashtags, the user and the date. With a draft identifier `d` (of a stored
draft, or `updateDoc` fails) the draft keyed by `d` becomes that record, the number and
the identifiers of the drafts do not change and no other draft changes; without one,
exactly one draft is added, under a new identifier, and no existing draft changes. -/
theorem handleSaveDraft_writes (env : Env) (w : World) (st : State) (uid : String)
    (hu : env.currentUser = some uid) (hr : env.reliable)
    (hne : truthy (jsTrim st.title) = true ∨ truthy (jsTrim st.content) = true ∨
      st.hashtags ≠ []) :
    (∀ d, st.draftId = some d → d ≠ "" → d ∈ docIds w.drafts →
      docGet (handleSaveDraft env w st).1.drafts d =
        some { title := st.title, content := (processContentImages env w st.content).2.2,
               hashtags := st.hashtags, userId := uid, timestamp := env.newDate } ∧
      (handleSaveDraft env w st).1.drafts.length = w.drafts.length ∧
      docIds (handleSaveDraft env w st).1.drafts = docIds w.drafts ∧
      ∀ i, i ≠ d → docGet (handleSaveDraft env w st).1.drafts i = docGet w.drafts i) ∧
    (truthyOpt st.draftId = false →
      (handleSaveDraft env w st).1.drafts =
        w.drafts ++ [(autoId w.drafts,
          { title := st.title, content := (processContentImages env w st.content).2.2,
            hashtags := st.hashtags, userId := uid, timestamp := env.newDate })] ∧
      autoId w.drafts ∉ docIds w.drafts ∧
      (handleSaveDraft env w st).1.drafts.length = w.drafts.length + 1 ∧
      ∀ i, i ∈ docIds w.drafts →
        docGet (handleSaveDraft env w st).1.drafts i = docGet w.drafts i) := by
  obtain ⟨_, _, ha, hupd, _⟩ := hr
  have hc : (!truthy (jsTrim st.title) && !truthy (jsTrim st.content) &&
      st.hashtags.length == 0) = false := by
    rcases hne with h | h | h
    · simp [h]
    · simp [h]
    · have : st.hashtags.length ≠ 0 := fun e => h (List.length_eq_zero.mp e)
      simp [this]
  constructor
  · intro d hd hdne hmem
    have ht : truthy d = true := (truthy_iff d).mpr hdne
    have h : (handleSaveDraft env w st).1.drafts =
        w.drafts.map (fun e => if e.1 == d then (e.1,
          ({ title := st.title, content := (processContentImages env w st.content).2.2,
             hashtags := st.hashtags, userId := uid, timestamp := env.newDate } : PostData))
          else e) := by
      simp only [handleSaveDraft, hc, hu, hd, ht, hupd, World.call]
      simp [docUpdate_of_mem _ _ _ hmem, processContentImages_drafts]
    rw [h]
    obtain ⟨x, hx⟩ := docGet_isSome_of_mem w.drafts d hmem
    refine ⟨?_, by simp, docIds_map_update _ _ (fun _ => _), ?_⟩
    · have := docGet_map_update w.drafts d d (fun _ =>
        ({ title := st.title, content := (processContentImages env w st.content).2.2,
           hashtags := st.hashtags, userId := uid, timestamp := env.newDate } : PostData))
      simp only [if_true, hx, Option.map_some'] at this
      exact this
    · intro i hi
      have := docGet_map_update w.drafts d i (fun _ =>
        ({ title := st.title, content := (processContentImages env w st.content).2.2,
           hashtags := st.hashtags, userId := uid, timestamp := env.newDate } : PostData))
      simp only [hi, if_false] at this
      exact this
  · intro hno
    have h : (handleSaveDraft env w st).1.drafts =
        w.drafts ++ [(autoId w.drafts,
          { title := st.title, content := (processContentImages env w st.content).2.2,
            hashtags := st.hashtags, userId := uid, timestamp := env.newDate })] := by
      cases hd : st.draftId with
      | none =>
        simp [handleSaveDraft, hc, hu, hd, ha, World.call, docAdd, processContentImages_drafts]
      | some d =>
        rw [hd] at hno
        simp only [truthyOpt] at hno
        simp [handleSaveDraft, hc, hu, hd, hno, ha, World.call, docAdd,
          processContentImages_drafts]
    rw [h]
    refine ⟨rfl, autoId_fresh _, by simp, ?_⟩
    intro i hi
    exact docGet_append_of_mem _ _ _ hi

/-- C7, amended, at the sample editor, with and without its draft identifier. -/
theorem handleSaveDraft_writes_witness :
    docGet (handleSaveDraft sampleEnv sampleWorld sampleEditor).1.drafts "d1" =
        some { title := "Hello", content := "<p>text</p>", hashtags := ["#a"], userId := "u1",
               timestamp := 2000 } ∧
    (handleSaveDraft sampleEnv sampleWorld { sampleEditor with draftId := none }).1.drafts.length
      = 2 :=
  ⟨((handleSaveDraft_writes sampleEnv sampleWorld sampleEditor "u1" rfl sampleEnv_reliable
      (Or.inl (by decide))).1 "d1" rfl (by decide) (by decide)).1,
   ((handleSaveDraft_writes sampleEnv sampleWorld { sampleEditor with draftId := none } "u1" rfl
      sampleEnv_reliable (Or.inl (by decide))).2 rfl).2.2.1⟩

/-- C8: without a draft identifier `handleDeleteDraft` does nothing at all (no call, the
world and the whole state, title, content, hashtags and error included, stay as they
were); with the identifier `d` and a successful delete, the draft keyed by `d` is absent
afterwards and title, content and hashtags are empty. -/
theorem handleDeleteDraft_spec (env : Env) (w : World) (st : State) :
    (truthyOpt st.draftId = false → handleDeleteDraft env w st = (w, st)) ∧
    (∀ d, st.draftId = some d → d ≠ "" → env.deleteDocFails = false →
      docGet (handleDeleteDraft env w st).1.drafts d = none ∧
      d ∉ docIds (handleDeleteDraft env w st).1.drafts ∧
      (handleDeleteDraft env w st).2.title = "" ∧
      (handleDeleteDraft env w st).2.content = "" ∧
      (handleDeleteDraft env w st).2.hashtags = []) := by
  constructor
  · intro h
    unfold handleDeleteDraft
    cases hd : st.draftId with
    | none => rfl
    | some d =>
      rw [hd] at h
      simp only [truthyOpt] at h
      simp [h]
  · intro d hd hne hf
    have ht : truthy d = true := (truthy_iff d).mpr hne
    have h : (handleDeleteDraft env w st).1.drafts = docDelete w.drafts d ∧
        (handleDeleteDraft env w st).2 = { st with title := "", content := "", hashtags := [] } := by
      simp [handleDeleteDraft, hd, ht, hf, World.call]
    rw [h.1, h.2]
    exact ⟨docGet_eq_none_of_not_mem _ _ (docIds_docDelete _ _), docIds_docDelete _ _,
      rfl, rfl, rfl⟩

/-- C8 at the blank editor (no identifier) and at the sample editor (draft `d1`). -/
theorem handleDeleteDraft_spec_witness :
    handleDeleteDraft sampleEnv sampleWorld blankEditor = (sampleWorld, blankEditor) ∧
    "d1" ∈ docIds sampleWorld.drafts ∧
    docGet (handleDeleteDraft sampleEnv sampleWorld sampleEditor).1.drafts "d1" = none ∧
    (handleDeleteDraft sampleEnv sampleWorld sampleEditor).2.title = "" :=
  ⟨(handleDeleteDraft_spec sampleEnv sampleWorld blankEditor).1 rfl, by decide,
   ((handleDeleteDraft_spec sampleEnv sampleWorld sampleEditor).2 "d1" rfl (by decide) rfl).1,
   ((handleDeleteDraft_spec sampleEnv sampleWorld sampleEditor).2 "d1" rfl (by decide) rfl).2.2.1⟩

end BlogEditor

/-! ## Editing the profile -/

namespace Profile

/-- `checkUsernameAvailability` only reads: at most the query is recorded. -/
theorem checkUsernameAvailability_world (env : Env) (w : World) (st : State)
    (x : Option String) :
    (checkUsernameAvailability env w st x).1 = w ∨
    (checkUsernameAvailability env w st x).1 = w.call (.getDocs "users" "username") := by
  unfold checkUsernameAvailability
  cases x with
  | none => exact Or.inl rfl
  | some n =>
    right
    simp only
    split
    · rfl
    · cases st.user <;> rfl

/-- What the answer `true` of `checkUsernameAvailability` means. -/
theorem checkUsernameAvailability_true (env : Env) (w : World) (st : State)
    (x : Option String) (h : (checkUsernameAvailability env w st x).2 = true) :
    ∃ n, x = some n ∧ env.getDocsFails = false ∧
      ((∃ u, st.user = some u ∧ u.username = some n) ∨
        ∀ d ∈ w.users, d.2.username ≠ some n) := by
  cases x with
  | none => simp [checkUsernameAvailability] at h
  | some n =>
    refine ⟨n, rfl, ?_⟩
    by_cases hg : env.getDocsFails = true
    · simp [checkUsernameAvailability, hg] at h
    · cases hu : st.user with
      | none => simp [checkUsernameAvailability, hg, hu] at h
      | some u =>
        refine ⟨by simpa using hg, ?_⟩
        by_cases hun : u.username = some n
        · exact Or.inl ⟨u, rfl, hun⟩
        · right
          intro d hd hdn
          simp [checkUsernameAvailability, hg, hu, hun, World.call] at h
          exact h _ _ hd hdn

/-- What the answer `false` does to `handleSave` when a user is signed in. -/
theorem handleSave_unavailable (env : Env) (w : World) (st : State) (uid : String)
    (hu : env.currentUser = some uid)
    (h : (checkUsernameAvailability env w st st.username).2 = false) :
    handleSave env w st =
      ((checkUsernameAvailability env w st st.username).1.call (.setTimeout 3000),
       { st with error := "Username is already taken." }) := by
  simp [handleSave, hu, h]

/-- C9, amended. For every state of the page, `handleSave` changes the document store
or the object store only if the entered username is the one of the loaded user or no
user record has it. When a user is signed in and the lookup fails (or cannot be made,
the username being undefined), or the entered username differs from the one of the
loaded user and a user record has it, `handleSave` leaves both stores as they were,
makes no call but the lookup and the timer (no upload), sets the error to
'Username is already taken.' and changes nothing else of the state: the page stays in
edit mode. -/
theorem handleSave_username (env : Env) (w : World) (st : State) :
    (((handleSave env w st).1.db ≠ w.db ∨ (handleSave env w st).1.objects ≠ w.objects) →
      ∃ n, st.username = some n ∧
        ((∃ u, st.user = some u ∧ u.username = some n) ∨
          ∀ d ∈ w.users, d.2.username ≠ some n)) ∧
    (∀ uid, env.currentUser = some uid →
      (env.getDocsFails = true ∨ st.username = none ∨
        ∃ n, st.username = some n ∧ (∀ u, st.user = some u → u.username ≠ some n) ∧
          ∃ d ∈ w.users, d.2.username = some n) →
      (handleSave env w st).1.db = w.db ∧
      (handleSave env w st).1.objects = w.objects ∧
      (∀ c ∈ (handleSave env w st).1.calls,
        c ∈ w.calls ∨ c = Call.getDocs "users" "username" ∨ c = Call.setTimeout 3000) ∧
      (handleSave env w st).2 = { st with error := "Username is already taken." }) := by
  constructor
  · intro hch
    by_contra hno
    apply hch.elim <;> intro hne <;> apply hne
    all_goals
      cases hu : env.currentUser with
      | none => simp [handleSave, hu]
      | some uid =>
        have hc : (checkUsernameAvailability env w st st.username).2 = false := by
          cases hc : (checkUsernameAvailability env w st st.username).2 with
          | false => rfl
          | true =>
            obtain ⟨n, h1, _, h2⟩ := checkUsernameAvailability_true env w st _ hc
            exact absurd ⟨n, h1, h2⟩ hno
        rw [handleSave_unavailable env w st uid hu hc]
        rcases checkUsernameAvailability_world env w st st.username with h | h <;> rw [h] <;> rfl
  · intro uid hu htaken
    have hc : (checkUsernameAvailability env w st st.username).2 = false := by
      cases hc : (checkUsernameAvailability env w st st.username).2 with
      | false => rfl
      | true =>
        obtain ⟨n, h1, h2, h3⟩ := checkUsernameAvailability_true env w st _ hc
        rcases htaken with h | h | ⟨m, hm, hdiff, d, hd, hdm⟩
        · rw [h2] at h; cases h
        · rw [h1] at h; cases h
        · rw [h1] at hm
          cases hm
          rcases h3 with ⟨u, hu1, hu2⟩ | h3
          · exact absurd hu2 (hdiff u hu1)
          · exact absurd hdm (h3 d hd)
    rw [handleSave_unavailable env w st uid hu hc]
    rcases checkUsernameAvailability_world env w st st.username with h | h <;> rw [h]
    · refine ⟨rfl, rfl, ?_, rfl⟩
      intro c hc
      simp only [World.call, List.mem_append, List.mem_singleton] at hc
      rcases hc with hc | hc
      · exact Or.inl hc
      · exact Or.inr (Or.inr hc)
    · refine ⟨rfl, rfl, ?_, rfl⟩
      intro c hc
      simp only [World.call, List.mem_append, List.mem_singleton] at hc
      rcases hc with (hc | hc) | hc
      · exact Or.inl hc
      · exact Or.inr (Or.inl hc)
      · exact Or.inr (Or.inr hc)

/-- C9, as the claim states it, fails when nobody is signed in any more: the entered
username `bob` differs from the current one and is held by another user, yet
`handleSave` raises at `auth.currentUser.uid` before the lookup and the error shown is
the one of a failed update, not 'Username is already taken.'. -/
theorem handleSave_signed_out :
    renamingProfile.username = some "bob" ∧
    renamingProfile.user.map (fun u => u.username) = some (some "ann") ∧
    docGet sampleWorld.users "u2" ≠ none ∧
    ((docGet sampleWorld.users "u2").map (fun u => u.username)) = some (some "bob") ∧
    (handleSave signedOutEnv sampleWorld renamingProfile).2.error =
      "Failed to update profile: Cannot read properties of null (reading 'uid')" ∧
    (handleSave signedOutEnv sampleWorld renamingProfile).2.error ≠
      "Username is already taken." := by
  decide

/-- C9, amended, at the sample page with the username `bob` entered. -/
theorem handleSave_username_witness :
    (handleSave sampleEnv sampleWorld renamingProfile).1.db = sampleWorld.db ∧
    (handleSave sampleEnv sampleWorld renamingProfile).2 =
      { renamingProfile with error := "Username is already taken." } :=
  ⟨((handleSave_username sampleEnv sampleWorld renamingProfile).2 "u1" rfl
      (Or.inr (Or.inr ⟨"bob", rfl, by decide, by decide⟩))).1,
   ((handleSave_username sampleEnv sampleWorld renamingProfile).2 "u1" rfl
      (Or.inr (Or.inr ⟨"bob", rfl, by decide, by decide⟩))).2.2.2⟩

/-- Edits in the form change neither the loaded user nor the name. -/
theorem applyEdits_user (env : Env) (edits : List Edit) :
    ∀ ws : World × State, (applyEdits env edits ws).2.user = ws.2.user ∧
      (applyEdits env edits ws).2.name = ws.2.name := by
  induction edits with
  | nil => intro ws; exact ⟨rfl, rfl⟩
  | cons e t ih =>
    intro ws
    have h : (applyEdit env ws e).2.user = ws.2.user ∧ (applyEdit env ws e).2.name = ws.2.name := by
      cases e <;> exact ⟨rfl, rfl⟩
    exact ⟨((ih (applyEdit env ws e)).1).trans h.1, ((ih (applyEdit env ws e)).2).trans h.2⟩

/-- C10: with a loaded user, `handleCancel` leaves the world as it was (no call),
leaves edit mode, sets name, bio and username to the values of the `user` snapshot (an
absent bio giving the empty string), sets the selected file to none and keeps the
snapshot; so when the fields showed the values of the snapshot, any sequence of edits
of the username, the bio and the selected file followed by `handleCancel` restores
them. -/
theorem handleCancel_restores (env : Env) (w : World) (st : State) (u : UserData)
    (hu : st.user = some u) :
    (handleCancel env w st).1 = w ∧
    (handleCancel env w st).2.isEditing = false ∧
    (handleCancel env w st).2.name = u.name ∧
    (handleCancel env w st).2.bio = u.bio.getD "" ∧
    (handleCancel env w st).2.username = u.username ∧
    (handleCancel env w st).2.imageFile = none ∧
    (handleCancel env w st).2.user = some u ∧
    (∀ (edits : List Edit) (w0 : World) (st0 : State),
      st0.user = some u → st0.name = u.name → st0.bio = u.bio.getD "" →
      st0.username = u.username →
      (handleCancel env (applyEdits env edits (w0, st0)).1
          (applyEdits env edits (w0, st0)).2).2.name = st0.name ∧
      (handleCancel env (applyEdits env edits (w0, st0)).1
          (applyEdits env edits (w0, st0)).2).2.bio = st0.bio ∧
      (handleCancel env (applyEdits env edits (w0, st0)).1
          (applyEdits env edits (w0, st0)).2).2.username = st0.username ∧
      (handleCancel env (applyEdits env edits (w0, st0)).1
          (applyEdits env edits (w0, st0)).2).2.imageFile = none ∧
      (handleCancel env (applyEdits env edits (w0, st0)).1
          (applyEdits env edits (w0, st0)).2).2.isEditing = false) := by
  have key : ∀ (w1 : World) (s1 : State), s1.user = some u →
      handleCancel env w1 s1 =
        (w1, { s1 with isEditing := false, name := u.name, bio := u.bio.getD "",
                       username := u.username, imageFile := none }) := by
    intro w1 s1 h1
    simp [handleCancel, h1]
  refine ⟨?_, ?_, ?_, ?_, ?_, ?_, ?_, ?_⟩
  · rw [key w st hu]
  · rw [key w st hu]
  · rw [key w st hu]
  · rw [key w st hu]
  · rw [key w st hu]
  · rw [key w st hu]
  · rw [key w st hu]; exact hu
  · intro edits w0 st0 h0 hn hb hun
    have hu1 : (applyEdits env edits (w0, st0)).2.user = some u := by
      rw [(applyEdits_user env edits (w0, st0)).1]; exact h0
    rw [key _ _ hu1]
    exact ⟨hn.symm, hb.symm, hun.symm, rfl, rfl⟩

/-- C10 at the sample page: three edits, then cancel. -/
theorem handleCancel_restores_witness :
    (handleCancel sampleEnv sampleWorld renamingProfile).2.username = some "ann" ∧
    (handleCancel sampleEnv
      (applyEdits sampleEnv [.username "bob", .bio "new", .image (some ⟨"a.png", "xx"⟩)]
        (sampleWorld, sampleProfile)).1
      (applyEdits sampleEnv [.username "bob", .bio "new", .image (some ⟨"a.png", "xx"⟩)]
        (sampleWorld, sampleProfile)).2).2.bio = "hi" :=
  ⟨(handleCancel_restores sampleEnv sampleWorld renamingProfile _ rfl).2.2.2.2.1,
   ((handleCancel_restores sampleEnv sampleWorld renamingProfile _ rfl).2.2.2.2.2.2.2
      [.username "bob", .bio "new", .image (some ⟨"a.png", "xx"⟩)] sampleWorld sampleProfile
      rfl rfl rfl rfl).2.1⟩

end Profile

/-! ## Occurrences of a text -/

theorem startsWith_append_self (p s : List Char) : startsWith p (p ++ s) = true := by
  induction p with
  | nil => rfl
  | cons a p ih => simp [startsWith, ih]

theorem startsWith_append_left (d e s : List Char) (h : startsWith (d ++ e) s = true) :
    startsWith d s = true := by
  induction d generalizing s with
  | nil => rfl
  | cons a d ih =>
    cases s with
    | nil => simp [startsWith] at h
    | cons b s =>
      simp only [List.cons_append, startsWith, Bool.and_eq_true] at h ⊢
      exact ⟨h.1, ih s h.2⟩

theorem eq_append_of_startsWith (p s : List Char) (h : startsWith p s = true) :
    s = p ++ s.drop p.length := by
  induction p generalizing s with
  | nil => rfl
  | cons a p ih =>
    cases s with
    | nil => simp [startsWith] at h
    | cons b s =>
      simp only [startsWith, Bool.and_eq_true, beq_iff_eq] at h
      simp only [List.length_cons, List.drop_succ_cons, List.cons_append]
      rw [← ih s h.2, h.1]

/-- A text without the character `c` that starts `a ++ c :: r` lies within `a`. -/
theorem startsWith_barrier (pat a r : List Char) (c : Char) (hc : c ∉ pat) :
    startsWith pat (a ++ c :: r) = startsWith pat a := by
  induction pat generalizing a with
  | nil => cases a <;> rfl
  | cons d pat ih =>
    have hd : ¬ d = c := fun e => hc (by simp [e])
    have hc2 : c ∉ pat := fun e => hc (List.mem_cons_of_mem _ e)
    cases a with
    | nil => simp [startsWith, hd]
    | cons x a =>
      show (d == x && startsWith pat (a ++ c :: r)) = (d == x && startsWith pat a)
      rw [ih a hc2]

theorem noStartIn_barrier (pat a r r2 : List Char) (c : Char) (hc : c ∉ pat) :
    noStartIn pat r (a ++ [c]) = noStartIn pat r2 (a ++ [c]) := by
  induction a with
  | nil =>
    show (!startsWith pat ([] ++ c :: r) && true) = (!startsWith pat ([] ++ c :: r2) && true)
    rw [startsWith_barrier _ _ _ _ hc, startsWith_barrier _ _ _ _ hc]
  | cons x a ih =>
    show (!startsWith pat (x :: (a ++ [c]) ++ r) && noStartIn pat r (a ++ [c])) =
      (!startsWith pat (x :: (a ++ [c]) ++ r2) && noStartIn pat r2 (a ++ [c]))
    rw [ih, show (x :: (a ++ [c]) ++ r) = (x :: a) ++ c :: r by simp,
      show (x :: (a ++ [c]) ++ r2) = (x :: a) ++ c :: r2 by simp,
      startsWith_barrier _ _ _ _ hc, startsWith_barrier _ _ _ _ hc]

theorem noStartIn_append (pat s a b : List Char) :
    noStartIn pat s (a ++ b) = (noStartIn pat (b ++ s) a && noStartIn pat s b) := by
  induction a with
  | nil => simp [noStartIn]
  | cons x a ih => simp [noStartIn, ih, Bool.and_assoc]

theorem startsWith_false_of_occursIn (pat s : List Char) (h : occursIn pat s = false) :
    startsWith pat s = false := by
  cases s with
  | nil => exact h
  | cons c cs =>
    simp only [occursIn, Bool.or_eq_false_iff] at h
    exact h.1

theorem noStartIn_of_occursIn (pat u r : List Char) (c : Char) (hc : c ∉ pat)
    (h : occursIn pat u = false) : noStartIn pat (c :: r) u = true := by
  induction u with
  | nil => rfl
  | cons x u ih =>
    simp only [occursIn, Bool.or_eq_false_iff] at h
    simp only [noStartIn, Bool.and_eq_true, Bool.not_eq_true']
    refine ⟨?_, ih h.2⟩
    rw [show (x :: u ++ c :: r) = (x :: u) ++ c :: r from rfl, startsWith_barrier _ _ _ _ hc]
    exact h.1

theorem occursIn_append_false (pat a s : List Char) (h1 : noStartIn pat s a = true)
    (h2 : occursIn pat s = false) : occursIn pat (a ++ s) = false := by
  induction a with
  | nil => exact h2
  | cons x a ih =>
    simp only [noStartIn, Bool.and_eq_true, Bool.not_eq_true'] at h1
    simp only [List.cons_append, occursIn, Bool.or_eq_false_iff]
    exact ⟨h1.1, ih h1.2⟩

theorem occursIn_append_self (pat a s : List Char) : occursIn pat (a ++ pat ++ s) = true := by
  induction a with
  | nil =>
    have h := startsWith_append_self pat s
    simp only [List.nil_append]
    cases hps : pat ++ s with
    | nil => rw [hps] at h; exact h
    | cons c cs => rw [hps] at h; simp [occursIn, h]
  | cons x a ih =>
    simp only [List.cons_append, occursIn, Bool.or_eq_true]
    exact Or.inr (by simpa using ih)

theorem noStartIn_mono (d e s a : List Char) (h : noStartIn d s a = true) :
    noStartIn (d ++ e) s a = true := by
  induction a with
  | nil => rfl
  | cons x a ih =>
    simp only [noStartIn, Bool.and_eq_true, Bool.not_eq_true'] at h ⊢
    refine ⟨?_, ih h.2⟩
    cases hs : startsWith (d ++ e) (x :: a ++ s) with
    | false => rfl
    | true => rw [startsWith_append_left d e _ hs] at h; exact absurd h.1 (by simp)

theorem splitAtFirst_append (pat a s : List Char) (h : noStartIn pat (pat ++ s) a = true) :
    splitAtFirst pat (a ++ (pat ++ s)) = some (a, s) := by
  induction a with
  | nil =>
    have hsw := startsWith_append_self pat s
    show splitAtFirst pat (pat ++ s) = some ([], s)
    cases hps : pat ++ s with
    | nil =>
      have hp : pat = [] := (List.append_eq_nil.mp hps).1
      have hs : s = [] := (List.append_eq_nil.mp hps).2
      subst hp; subst hs
      simp [splitAtFirst, startsWith]
    | cons c cs =>
      rw [hps] at hsw
      simp only [splitAtFirst, hsw, if_true]
      rw [← hps]
      simp
  | cons x a ih =>
    simp only [noStartIn, Bool.and_eq_true, Bool.not_eq_true'] at h
    have h1 : startsWith pat (x :: (a ++ (pat ++ s))) = false := h.1
    show splitAtFirst pat (x :: (a ++ (pat ++ s))) = some (x :: a, s)
    simp only [splitAtFirst, h1, ih h.2]
    simp

theorem getSubstitution_of_no_dollar (m b a r : List Char) (h : '$' ∉ r) :
    getSubstitution m b a r = r := by
  induction r with
  | nil => rfl
  | cons c r ih =>
    have hc : ¬ c = '$' := fun e => h (by simp [e])
    have hr : '$' ∉ r := fun e => h (List.mem_cons_of_mem _ e)
    rw [getSubstitution.eq_def]
    simp only [hc, if_false]
    rw [ih hr]

/-- Replacing a text whose first occurrence is known, by a text without dollar sign. -/
theorem jsReplace_append (pat a s r : List Char) (h : noStartIn pat (pat ++ s) a = true)
    (hr : '$' ∉ r) : jsReplace (a ++ (pat ++ s)) pat r = a ++ (r ++ s) := by
  simp [jsReplace, splitAtFirst_append pat a s h, getSubstitution_of_no_dollar _ _ _ _ hr]

theorem countOcc_append_ge (pat a s : List Char) : countOcc pat s ≤ countOcc pat (a ++ s) := by
  induction a with
  | nil => exact le_refl _
  | cons x a ih =>
    show countOcc pat s ≤ (if startsWith pat (x :: (a ++ s)) then 1 else 0) + countOcc pat (a ++ s)
    omega

theorem noStartIn_of_countOcc (pat a s : List Char)
    (h : countOcc pat (a ++ s) = countOcc pat s) : noStartIn pat s a = true := by
  induction a with
  | nil => rfl
  | cons x a ih =>
    have h : (if startsWith pat (x :: (a ++ s)) then 1 else 0) + countOcc pat (a ++ s) =
        countOcc pat s := h
    have hge := countOcc_append_ge pat a s
    simp only [noStartIn, Bool.and_eq_true, Bool.not_eq_true']
    cases hs : startsWith pat (x :: (a ++ s)) with
    | true => rw [hs] at h; simp at h; omega
    | false =>
      rw [hs] at h
      simp only [if_false, Bool.false_eq_true, zero_add] at h
      exact ⟨by simpa using hs, ih h⟩

theorem occursIn_of_countOcc (pat s : List Char) (h : countOcc pat s = 0) :
    occursIn pat s = false := by
  induction s with
  | nil =>
    simp only [countOcc] at h
    simp only [occursIn]
    by_contra hc
    simp [hc] at h
  | cons x s ih =>
    simp only [countOcc] at h
    simp only [occursIn, Bool.or_eq_false_iff]
    have h1 : startsWith pat (x :: s) = false := by
      by_contra hc
      simp [hc] at h
    exact ⟨h1, ih (by omega)⟩

/-! ## The scan of the image tags -/

theorem matchSrcValue_sound (s v : List Char) (n : Nat) (h : matchSrcValue s = some (v, n)) :
    ∃ y, s = v ++ '"' :: y ∧ n = v.length + 1 := by
  unfold matchSrcValue at h
  have hs := List.takeWhile_append_dropWhile isSrcChar s
  cases hd : s.dropWhile isSrcChar with
  | nil => rw [hd] at h; cases h
  | cons c y =>
    rw [hd] at h hs
    simp only at h
    split at h
    · next hc =>
      simp only [Option.some.injEq, Prod.mk.injEq] at h
      refine ⟨y, ?_, by rw [← h.2, h.1]⟩
      rw [← h.1, ← hc.1]; exact hs.symm
    · cases h

theorem matchSrcAttr_sound (s v : List Char) (n : Nat) (h : matchSrcAttr s = some (v, n)) :
    ∃ pre y, s = pre ++ '"' :: v ++ '"' :: y ∧ n = pre.length + v.length + 2 := by
  unfold matchSrcAttr at h
  split at h
  · next hsw =>
    have hs := eq_append_of_startsWith _ _ hsw
    cases hm : matchSrcValue (s.drop 5) with
    | none => rw [hm] at h; cases h
    | some r =>
      obtain ⟨v2, n2⟩ := r
      rw [hm] at h
      simp only [Option.some.injEq, Prod.mk.injEq] at h
      obtain ⟨y, hy, hn⟩ := matchSrcValue_sound _ _ _ hm
      refine ⟨['s', 'r', 'c', '='], y, ?_, ?_⟩
      · rw [hs]
        simp only [List.length_cons, List.length_nil] at hy ⊢
        rw [hy, ← h.1]; simp
      · rw [← h.2, hn, ← h.1]; simp; omega
  · cases h

theorem matchGreedy_sound (s v : List Char) (n : Nat) (h : matchGreedy s = some (v, n)) :
    ∃ pre y, s = pre ++ '"' :: v ++ '"' :: y ∧ n = pre.length + v.length + 2 := by
  induction s generalizing n with
  | nil => cases h
  | cons c cs ih =>
    rw [matchGreedy] at h
    split at h
    · exact matchSrcAttr_sound _ _ _ h
    · cases hm : matchGreedy cs with
      | none => rw [hm] at h; exact matchSrcAttr_sound _ _ _ h
      | some r =>
        obtain ⟨v2, n2⟩ := r
        rw [hm] at h
        simp only [Option.some.injEq, Prod.mk.injEq] at h
        obtain ⟨pre, y, hy, hn⟩ := ih n2 (by rw [hm, h.1])
        refine ⟨c :: pre, y, by rw [hy]; simp, ?_⟩
        rw [← h.2, hn]; simp; omega

theorem matchImg_sound (s v : List Char) (n : Nat) (h : matchImg s = some (v, n)) :
    ∃ pre y, s = pre ++ '"' :: v ++ '"' :: y ∧ n = pre.length + v.length + 2 := by
  unfold matchImg at h
  split at h
  · next c cs =>
    split at h
    · cases h
    · cases hm : matchGreedy cs with
      | none => rw [hm] at h; cases h
      | some r =>
        obtain ⟨v2, n2⟩ := r
        rw [hm] at h
        simp only [Option.some.injEq, Prod.mk.injEq] at h
        obtain ⟨pre, y, hy, hn⟩ := matchGreedy_sound cs v2 n2 hm
        refine ⟨'<' :: 'i' :: 'm' :: 'g' :: c :: pre, y, ?_, ?_⟩
        · rw [hy, ← h.1]; simp
        · rw [← h.2, hn, ← h.1]; simp; omega
  · cases h

theorem scanSrcs_skip (m y : List Char) : scanSrcs (m ++ y) m.length = scanSrcs y 0 := by
  induction m with
  | nil => rfl
  | cons x m ih => exact ih

/-- The first embedded image the scan finds stands between two quotes, and the scan
goes on behind the closing quote. -/
theorem scanSrcs_data (s : List Char) :
    ∀ (skip : Nat) (p : List Char) (l : List (List Char)),
      (scanSrcs s skip).filter (startsWith dataImage) = p :: l →
      ∃ x y, s = x ++ '"' :: p ++ '"' :: y ∧
        (scanSrcs y 0).filter (startsWith dataImage) = l := by
  induction s with
  | nil => intro skip p l h; cases skip <;> simp [scanSrcs] at h
  | cons c cs ih =>
    intro skip p l h
    cases skip with
    | succ k =>
      obtain ⟨x, y, hx, hy⟩ := ih k p l h
      exact ⟨c :: x, y, by rw [hx]; simp, hy⟩
    | zero =>
      rw [scanSrcs] at h
      cases hm : matchImg (c :: cs) with
      | none =>
        rw [hm] at h
        obtain ⟨x, y, hx, hy⟩ := ih 0 p l h
        exact ⟨c :: x, y, by rw [hx]; simp, hy⟩
      | some r =>
        obtain ⟨v, n⟩ := r
        rw [hm] at h
        simp only at h
        by_cases hv : startsWith dataImage v = true
        · simp only [List.filter_cons, hv, if_true, List.cons.injEq] at h
          obtain ⟨pre, y, hy, hn⟩ := matchImg_sound _ _ _ hm
          refine ⟨pre, y, by rw [hy, h.1], ?_⟩
          rw [← h.2]
          have hcs : cs = (pre ++ '"' :: v ++ ['"']).tail ++ y := by
            cases pre with
            | nil => simp at hy; simp [hy.2]
            | cons a pre => simp at hy; simp [hy.2]
          have hlen : n - 1 = ((pre ++ '"' :: v ++ ['"']).tail).length := by
            rw [hn]; simp; omega
          rw [hcs, hlen, scanSrcs_skip]
        · simp only [List.filter_cons, hv] at h
          obtain ⟨x, y, hx, hy⟩ := ih (n - 1) p l h
          exact ⟨c :: x, y, by rw [hx]; simp, hy⟩

/-! ## Externalizing two images -/

theorem startsWith_append_right (pat a s : List Char) (h : startsWith pat a = true) :
    startsWith pat (a ++ s) = true := by
  induction pat generalizing a with
  | nil => rfl
  | cons d pat ih =>
    cases a with
    | nil => simp [startsWith] at h
    | cons x a =>
      simp only [startsWith, Bool.and_eq_true] at h
      show (d == x && startsWith pat (a ++ s)) = true
      simp [h.1, ih a h.2]

/-- The scheme holds no quote. -/
theorem quote_not_mem_dataImage : '"' ∉ dataImage := by decide

/-- Two replacements in a markup whose only occurrences of the scheme are the two
`src` values, each between quotes. -/
theorem replace_two (x p m q y u0 u1 : List Char)
    (hp : startsWith dataImage p = true) (hq : startsWith dataImage q = true)
    (hcount : countOcc dataImage
      ((x ++ ['"']) ++ (p ++ (('"' :: m ++ ['"']) ++ (q ++ '"' :: y)))) = 2)
    (hd0 : '$' ∉ u0) (hd1 : '$' ∉ u1)
    (ho0 : occursIn dataImage u0 = false) (ho1 : occursIn dataImage u1 = false) :
    jsReplace (jsReplace ((x ++ ['"']) ++ (p ++ (('"' :: m ++ ['"']) ++ (q ++ '"' :: y))))
        p u0) q u1 =
      (x ++ ['"']) ++ (u0 ++ (('"' :: m ++ ['"']) ++ (u1 ++ '"' :: y))) ∧
    occursIn dataImage
      ((x ++ ['"']) ++ (u0 ++ (('"' :: m ++ ['"']) ++ (u1 ++ '"' :: y)))) = false := by
  have hD := quote_not_mem_dataImage
  -- the payloads are not empty
  obtain ⟨pc, p2, hpc⟩ : ∃ pc p2, p = pc :: p2 := by
    cases p with
    | nil => simp [startsWith, dataImage] at hp
    | cons a t => exact ⟨a, t, rfl⟩
  obtain ⟨qc, q2, hqc⟩ : ∃ qc q2, q = qc :: q2 := by
    cases q with
    | nil => simp [startsWith, dataImage] at hq
    | cons a t => exact ⟨a, t, rfl⟩
  -- counting the occurrences
  have e1 : countOcc dataImage (q ++ '"' :: y) = 1 + countOcc dataImage (q2 ++ '"' :: y) := by
    have h := startsWith_append_right _ _ ('"' :: y) hq
    rw [hqc] at h ⊢
    show (if startsWith dataImage (qc :: (q2 ++ '"' :: y)) then 1 else 0) + _ = _
    rw [show startsWith dataImage (qc :: (q2 ++ '"' :: y)) = true from h]; simp
  have e2 : countOcc dataImage (p ++ (('"' :: m ++ ['"']) ++ (q ++ '"' :: y))) =
      1 + countOcc dataImage (p2 ++ (('"' :: m ++ ['"']) ++ (q ++ '"' :: y))) := by
    have h := startsWith_append_right _ _ (('"' :: m ++ ['"']) ++ (q ++ '"' :: y)) hp
    rw [hpc] at h ⊢
    show (if startsWith dataImage (pc :: (p2 ++ _)) then 1 else 0) + _ = _
    rw [show startsWith dataImage (pc :: (p2 ++ (('"' :: m ++ ['"']) ++ (q ++ '"' :: y))))
      = true from h]; simp
  have g1 := countOcc_append_ge dataImage (x ++ ['"'])
    (p ++ (('"' :: m ++ ['"']) ++ (q ++ '"' :: y)))
  have g2 := countOcc_append_ge dataImage (p2 ++ ('"' :: m ++ ['"'])) (q ++ '"' :: y)
  rw [List.append_assoc] at g2
  have g3 := countOcc_append_ge dataImage q2 ('"' :: y)
  -- no occurrence starts before the first payload, between the payloads, behind them
  have n1 : noStartIn dataImage (p ++ (('"' :: m ++ ['"']) ++ (q ++ '"' :: y)))
      (x ++ ['"']) = true := noStartIn_of_countOcc _ _ _ (by omega)
  have n2 : noStartIn dataImage (q ++ '"' :: y) ('"' :: m ++ ['"']) = true := by
    have h : noStartIn dataImage (q ++ '"' :: y) (p2 ++ ('"' :: m ++ ['"'])) = true :=
      noStartIn_of_countOcc _ _ _ (by rw [List.append_assoc]; omega)
    rw [noStartIn_append, Bool.and_eq_true] at h
    exact h.2
  have n3 : occursIn dataImage ('"' :: y) = false := occursIn_of_countOcc _ _ (by omega)
  -- the first replacement
  have r1 : jsReplace ((x ++ ['"']) ++ (p ++ (('"' :: m ++ ['"']) ++ (q ++ '"' :: y)))) p u0 =
      (x ++ ['"']) ++ (u0 ++ (('"' :: m ++ ['"']) ++ (q ++ '"' :: y))) := by
    apply jsReplace_append _ _ _ _ _ hd0
    have := noStartIn_mono dataImage (p.drop dataImage.length) _ _ n1
    rwa [← eq_append_of_startsWith _ _ hp] at this
  -- the second replacement
  have m1 : noStartIn dataImage (q ++ '"' :: y)
      ((x ++ ['"']) ++ (u0 ++ ('"' :: m ++ ['"']))) = true := by
    rw [noStartIn_append dataImage _ (x ++ ['"']) (u0 ++ ('"' :: m ++ ['"'])),
      noStartIn_append dataImage _ u0 ('"' :: m ++ ['"']), Bool.and_eq_true, Bool.and_eq_true]
    refine ⟨?_, ?_, n2⟩
    · rw [noStartIn_barrier _ _ _ (p ++ (('"' :: m ++ ['"']) ++ (q ++ '"' :: y))) _ hD]
      exact n1
    · exact noStartIn_of_occursIn _ _ _ _ hD ho0
  have r2 : jsReplace ((x ++ ['"']) ++ (u0 ++ (('"' :: m ++ ['"']) ++ (q ++ '"' :: y)))) q u1 =
      (x ++ ['"']) ++ (u0 ++ (('"' :: m ++ ['"']) ++ (u1 ++ '"' :: y))) := by
    have h := jsReplace_append q ((x ++ ['"']) ++ (u0 ++ ('"' :: m ++ ['"']))) ('"' :: y) u1
      (by
        have := noStartIn_mono dataImage (q.drop dataImage.length) _ _ m1
        rwa [← eq_append_of_startsWith _ _ hq] at this) hd1
    simpa [List.append_assoc] using h
  refine ⟨by rw [r1, r2], ?_⟩
  -- nothing of the scheme is left
  apply occursIn_append_false
  · rw [noStartIn_barrier _ _ _ (p ++ (('"' :: m ++ ['"']) ++ (q ++ '"' :: y))) _ hD]
    exact n1
  apply occursIn_append_false
  · exact noStartIn_of_occursIn _ _ _ _ hD ho0
  apply occursIn_append_false
  · rw [show ('"' :: m ++ ['"']) = ('"' :: m) ++ ['"'] from rfl,
      noStartIn_barrier _ _ _ (q ++ '"' :: y) _ hD]
    exact n2
  apply occursIn_append_false
  · exact noStartIn_of_occursIn _ _ _ _ hD ho1
  exact n3

namespace BlogEditor

/-- C3, as the claim states it, fails in three ways, every upload succeeding. When the
payload of the first image also occurs as text ahead of its tag, `replace` substitutes
that first occurrence and the image tag keeps its embedded payload. When both uploads
happen within the same millisecond they are stored under the same path: the second
overwrites the first and both tags get the same reference. When the first tag has a
`data-src` attribute behind its `src`, the regular expression captures the value of
`data-src`, the last `src="…"` of the tag, and the first payload is never uploaded: it
stays embedded. -/
theorem two_images_counterexample :
    dataSrcs textThenImages.data =
      ["data:image/png;base64,AAAA".data, "data:image/gif;base64,BBBB".data] ∧
    sampleEnv.reliable ∧
    (processContentImages sampleEnv sampleWorld textThenImages).2.2 =
      "<p>https://cdn/images/1000</p><img src=\"data:image/png;base64,AAAA\"><img src=\"https://cdn/images/1001\">" ∧
    occursIn dataImage (processContentImages sampleEnv sampleWorld textThenImages).2.2.data = true ∧
    dataSrcs twoImages.data =
      ["data:image/png;base64,AAAA".data, "data:image/gif;base64,BBBB".data] ∧
    sameMillisecond.reliable ∧
    (processContentImages sameMillisecond sampleWorld twoImages).2.2 =
      "<p>a</p><img src=\"https://cdn/images/1000\"><img src=\"https://cdn/images/1000\">" ∧
    (processContentImages sameMillisecond sampleWorld twoImages).1.objects =
      [("images/1000", "data:image/gif;base64,BBBB")] ∧
    imgSrcs srcThenDataSrc.data = ["x.png".data, "data:image/gif;base64,BBBB".data] ∧
    countOcc dataImage srcThenDataSrc.data = 2 ∧
    (processContentImages sampleEnv sampleWorld srcThenDataSrc).2.1 = none ∧
    (processContentImages sampleEnv sampleWorld srcThenDataSrc).2.2 =
      "<img src=\"data:image/png;base64,AAAA\" data-src=\"x.png\"><img src=\"https://cdn/images/1000\">" ∧
    occursIn dataImage (processContentImages sampleEnv sampleWorld srcThenDataSrc).2.2.data = true := by
  refine ⟨by decide, ?_, by decide, by decide, by decide, ?_, by decide, by decide,
    by decide, by decide, by decide, by decide, by decide⟩
  · simp [Env.reliable, sampleEnv]
  · simp [Env.reliable, sameMillisecond, sampleEnv]

/-- C3, amended: for a markup in which the values the regular expression of the loop
captures that begin with `data:image/` are `p` then `q`, and in which the text
`data:image/` occurs twice and no more, when both uploads and both lookups of the
download URL succeed and the two download URLs differ and hold neither a dollar sign
nor the text `data:image/`, `processContentImages` returns the markup with `p`
replaced by the first URL and `q` by the second, everything else in place: the result
holds the two distinct references, no `data:image/` remains, and no error is
reported. -/
theorem processContentImages_two_images (env : Env) (w : World) (html : String)
    (p q : List Char)
    (hs : dataSrcs html.data = [p, q])
    (hcount : countOcc dataImage html.data = 2)
    (hu0 : env.uploadStringFails 0 = false) (hg0 : env.getDownloadURLFails 0 = false)
    (hu1 : env.uploadStringFails 1 = false) (hg1 : env.getDownloadURLFails 1 = false)
    (hd0 : '$' ∉ (env.urlOf ("images/" ++ toString (env.now 0))).data)
    (hd1 : '$' ∉ (env.urlOf ("images/" ++ toString (env.now 1))).data)
    (ho0 : occursIn dataImage (env.urlOf ("images/" ++ toString (env.now 0))).data = false)
    (ho1 : occursIn dataImage (env.urlOf ("images/" ++ toString (env.now 1))).data = false)
    (hne : env.urlOf ("images/" ++ toString (env.now 0)) ≠
      env.urlOf ("images/" ++ toString (env.now 1))) :
    (∃ a b c, html.data = a ++ (p ++ (b ++ (q ++ c))) ∧
      (processContentImages env w html).2.2.data =
        a ++ ((env.urlOf ("images/" ++ toString (env.now 0))).data ++
          (b ++ ((env.urlOf ("images/" ++ toString (env.now 1))).data ++ c)))) ∧
    (processContentImages env w html).2.1 = none ∧
    occursIn (env.urlOf ("images/" ++ toString (env.now 0))).data
      (processContentImages env w html).2.2.data = true ∧
    occursIn (env.urlOf ("images/" ++ toString (env.now 1))).data
      (processContentImages env w html).2.2.data = true ∧
    (env.urlOf ("images/" ++ toString (env.now 0))).data ≠
      (env.urlOf ("images/" ++ toString (env.now 1))).data ∧
    occursIn dataImage (processContentImages env w html).2.2.data = false := by
  have hp : startsWith dataImage p = true :=
    mem_dataSrcs_startsWith html.data p (by rw [hs]; simp)
  have hq : startsWith dataImage q = true :=
    mem_dataSrcs_startsWith html.data q (by rw [hs]; simp)
  obtain ⟨x, y1, hx, hy1⟩ := scanSrcs_data html.data 0 p [q] hs
  obtain ⟨m, y, hm, _⟩ := scanSrcs_data y1 0 q [] hy1
  have hhtml : html.data =
      (x ++ ['"']) ++ (p ++ (('"' :: m ++ ['"']) ++ (q ++ '"' :: y))) := by
    rw [hx, hm]; simp
  rw [hhtml] at hcount
  obtain ⟨hr, hno⟩ := replace_two x p m q y _ _ hp hq hcount hd0 hd1 ho0 ho1
  have hres : (processContentImages env w html).2.2.data =
      (x ++ ['"']) ++ ((env.urlOf ("images/" ++ toString (env.now 0))).data ++
        (('"' :: m ++ ['"']) ++ ((env.urlOf ("images/" ++ toString (env.now 1))).data ++
          '"' :: y))) ∧ (processContentImages env w html).2.1 = none := by
    rw [processContentImages_eq, hs]
    simp only [processLoop, hp, hq, hu0, hg0, hu1, hg1, if_true]
    rw [hhtml]
    exact ⟨hr, rfl⟩
  refine ⟨⟨x ++ ['"'], '"' :: m ++ ['"'], '"' :: y, hhtml, hres.1⟩, hres.2, ?_, ?_, ?_, ?_⟩
  · rw [hres.1]
    have := occursIn_append_self (env.urlOf ("images/" ++ toString (env.now 0))).data
      (x ++ ['"']) (('"' :: m ++ ['"']) ++
        ((env.urlOf ("images/" ++ toString (env.now 1))).data ++ '"' :: y))
    simpa [List.append_assoc] using this
  · rw [hres.1]
    have := occursIn_append_self (env.urlOf ("images/" ++ toString (env.now 1))).data
      ((x ++ ['"']) ++ ((env.urlOf ("images/" ++ toString (env.now 0))).data ++
        ('"' :: m ++ ['"']))) ('"' :: y)
    simpa [List.append_assoc] using this
  · intro h
    exact hne (String.ext h)
  · rw [hres.1]; exact hno

/-- C3, amended, at the markup with two embedded images. -/
theorem processContentImages_two_images_witness :
    dataSrcs twoImages.data =
      ["data:image/png;base64,AAAA".data, "data:image/gif;base64,BBBB".data] ∧
    countOcc dataImage twoImages.data = 2 ∧
    occursIn dataImage (processContentImages sampleEnv sampleWorld twoImages).2.2.data = false ∧
    (processContentImages sampleEnv sampleWorld twoImages).2.2 =
      "<p>a</p><img src=\"https://cdn/images/1000\"><img src=\"https://cdn/images/1001\">" :=
  ⟨by decide, by decide,
   (processContentImages_two_images sampleEnv sampleWorld twoImages
      "data:image/png;base64,AAAA".data "data:image/gif;base64,BBBB".data
      (by decide) (by decide) rfl rfl rfl rfl (by decide) (by decide) (by decide) (by decide)
      (by decide)).2.2.2.2.2,
   by decide⟩

end BlogEditor

/-! ## Registration -/

section store
variable {α : Type}

theorem not_mem_docIds_of_docGet (c : List (String × α)) (i : String)
    (h : docGet c i = none) : i ∉ docIds c := by
  intro hm
  obtain ⟨x, hx⟩ := docGet_isSome_of_mem c i hm
  rw [hx] at h; cases h

theorem docSet_of_absent (c : List (String × α)) (i : String) (x : α)
    (h : docGet c i = none) : docSet c i x = c ++ [(i, x)] := by
  have := not_mem_docIds_of_docGet c i h
  simp [docSet, this]

theorem docGet_docSet_ne (c : List (String × α)) (i j : String) (x : α) (h : j ≠ i) :
    docGet (docSet c i x) j = docGet c j := by
  unfold docSet
  split
  · have := docGet_map_update c i j (fun _ => x)
    simp only [h, if_false] at this
    exact this
  · by_cases hj : j ∈ docIds c
    · exact docGet_append_of_mem _ _ _ hj
    · rw [docGet_append_of_not_mem _ _ _ hj, docGet_eq_none_of_not_mem _ _ hj]
      have hij : ¬ i = j := fun e => h e.symm
      simp [docGet, hij]

end store

namespace Register

/-- C11: whichever call of `signupHandler` raises (the creation of the identity, the
update of the profile, the write of the user record), the error set is the message of
the code of the exception, and of nothing else. The codes 'auth/weak-password',
'auth/email-already-in-use' and 'auth/invalid-email' have three messages of their own,
pairwise distinct, and every other code, a missing one included, has the message
'An unexpected error occurred. Please try again.'. -/
theorem signupHandler_error_message (env : Env) (w : World) (st : State)
    (hfilled : st.email ≠ "" ∧ st.password ≠ "" ∧ st.username ≠ "") :
    (∀ e, env.createUser = .error e →
      (signupHandler env w st).2.error = signupErrorMessage e.code) ∧
    (∀ uid e, env.createUser = .ok uid → env.updateProfile = some e →
      (signupHandler env w st).2.error = signupErrorMessage e.code) ∧
    (∀ uid e, env.createUser = .ok uid → env.updateProfile = none → env.setDoc = some e →
      (signupHandler env w st).2.error = signupErrorMessage e.code) ∧
    signupErrorMessage (some "auth/weak-password") =
      "Password must be at least 6 characters long." ∧
    signupErrorMessage (some "auth/email-already-in-use") =
      "This email is already registered. Please use another email." ∧
    signupErrorMessage (some "auth/invalid-email") =
      "Invalid email format. Please check your email." ∧
    signupErrorMessage (some "auth/weak-password") ≠
      signupErrorMessage (some "auth/email-already-in-use") ∧
    signupErrorMessage (some "auth/weak-password") ≠
      signupErrorMessage (some "auth/invalid-email") ∧
    signupErrorMessage (some "auth/email-already-in-use") ≠
      signupErrorMessage (some "auth/invalid-email") ∧
    (∀ code, code ≠ some "auth/weak-password" → code ≠ some "auth/email-already-in-use" →
      code ≠ some "auth/invalid-email" →
      signupErrorMessage code = "An unexpected error occurred. Please try again.") := by
  have hf : (!truthy st.email || !truthy st.password || !truthy st.username) = false := by
    simp [truthy, hfilled.1, hfilled.2.1, hfilled.2.2]
  refine ⟨?_, ?_, ?_, by decide, by decide, by decide, by decide, by decide, by decide, ?_⟩
  · intro e he; simp [signupHandler, hf, he]
  · intro uid e hc hu; simp [signupHandler, hf, hc, hu]
  · intro uid e hc hu hs; simp [signupHandler, hf, hc, hu, hs]
  · intro code h1 h2 h3; simp [signupErrorMessage, h1, h2, h3]

/-- C11 at the sample form, the password being rejected as too short. -/
theorem signupHandler_error_message_witness :
    (signupHandler weakPassword sampleWorld sampleForm).2.error =
      "Password must be at least 6 characters long." ∧
    signupErrorMessage none = "An unexpected error occurred. Please try again." :=
  ⟨(signupHandler_error_message weakPassword sampleWorld sampleForm
      ⟨by decide, by decide, by decide⟩).1 _ rfl,
   (signupHandler_error_message weakPassword sampleWorld sampleForm
      ⟨by decide, by decide, by decide⟩).2.2.2.2.2.2.2.2.2 none (by decide) (by decide)
      (by decide)⟩

/-- C12: with a name, an email and a password entered, when the identity provider rejects
the password with the code 'auth/weak-password', `signupHandler` sets the error to
'Password must be at least 6 characters long.' and leaves the world as it was: no
record is written to the `users` collection, no call to the store is made. -/
theorem signupHandler_weak_password (env : Env) (w : World) (st : State) (message : String)
    (hfilled : st.email ≠ "" ∧ st.password ≠ "" ∧ st.username ≠ "")
    (hweak : env.createUser = .error { code := some "auth/weak-password", message := message }) :
    (signupHandler env w st).2.error = "Password must be at least 6 characters long." ∧
    (signupHandler env w st).1 = w ∧
    (signupHandler env w st).1.users = w.users := by
  have hf : (!truthy st.email || !truthy st.password || !truthy st.username) = false := by
    simp [truthy, hfilled.1, hfilled.2.1, hfilled.2.2]
  have h : signupHandler env w st =
      (w, { st with error := "Password must be at least 6 characters long." }) := by
    simp [signupHandler, hf, hweak, signupErrorMessage]
  rw [h]
  exact ⟨rfl, rfl, rfl⟩

/-- C12 at the sample form. -/
theorem signupHandler_weak_password_witness :
    (signupHandler weakPassword sampleWorld sampleForm).2.error =
      "Password must be at least 6 characters long." ∧
    (signupHandler weakPassword sampleWorld sampleForm).1 = sampleWorld :=
  ⟨(signupHandler_weak_password weakPassword sampleWorld sampleForm "weak"
      ⟨by decide, by decide, by decide⟩ rfl).1,
   (signupHandler_weak_password weakPassword sampleWorld sampleForm "weak"
      ⟨by decide, by decide, by decide⟩ rfl).2.1⟩

/-- C13: both registration paths seed the user record keyed by the new identity only if
no record with that key exists, and leave existing records unchanged.
`signInWithGoogle` leaves the `users` collection as it was when a record keyed by the
identity exists, changes it only when none exists, and then, the calls succeeding, adds
the record of the identity. `signupHandler` writes under the identity
`createUserWithEmailAndPassword` has just created, which is new, so that no record is
keyed by it: whatever its calls do, every record that exists is left unchanged, the
collection changes only when no record is keyed by the identity, and then, the calls
succeeding, the seed record of the identity is added. -/
theorem registration_seeds (w : World) (st : State) :
    (∀ env : Env,
      (∀ user, env.signInWithPopup = .ok user → docGet w.users user.uid ≠ none →
        (signInWithGoogle env w st).1.users = w.users) ∧
      ((signInWithGoogle env w st).1.users ≠ w.users →
        ∃ user, env.signInWithPopup = .ok user ∧ docGet w.users user.uid = none) ∧
      (∀ user, env.signInWithPopup = .ok user → docGet w.users user.uid = none →
        env.getDoc = none → env.setDoc = none →
        (signInWithGoogle env w st).1.users = w.users ++ [(user.uid, googleRecord user)])) ∧
    (∀ env : Env, (∀ uid, env.createUser = .ok uid → docGet w.users uid = none) →
      (∀ i r, docGet w.users i = some r →
        docGet (signupHandler env w st).1.users i = some r) ∧
      ((signupHandler env w st).1.users ≠ w.users →
        ∃ uid, env.createUser = .ok uid ∧ docGet w.users uid = none) ∧
      (∀ uid, st.email ≠ "" → st.password ≠ "" → st.username ≠ "" →
        env.createUser = .ok uid → env.updateProfile = none → env.setDoc = none →
        (signupHandler env w st).1.users = w.users ++ [(uid, signupRecord uid st)] ∧
        docGet (signupHandler env w st).1.users uid = some (signupRecord uid st))) := by
  constructor
  · intro env
    refine ⟨?_, ?_, ?_⟩
    · intro user hu hex
      cases hd : docGet w.users user.uid with
      | none => exact absurd hd hex
      | some r =>
        cases hg : env.getDoc <;> simp [signInWithGoogle, hu, hg, hd, World.call]
    · intro hch
      cases hu : env.signInWithPopup with
      | error e => simp [signInWithGoogle, hu] at hch
      | ok user =>
        refine ⟨user, rfl, ?_⟩
        cases hd : docGet w.users user.uid with
        | none => rfl
        | some r =>
          exfalso; apply hch
          cases hg : env.getDoc <;> simp [signInWithGoogle, hu, hg, hd, World.call]
    · intro user hu hd hg hs
      simp [signInWithGoogle, hu, hg, hd, hs, World.call, docSet_of_absent _ _ _ hd]
  · intro env hnew
    have hcases : (signupHandler env w st).1.users = w.users ∨
        ∃ uid, env.createUser = .ok uid ∧
          (signupHandler env w st).1.users = docSet w.users uid (signupRecord uid st) := by
      unfold signupHandler
      split
      · exact Or.inl rfl
      · cases hc : env.createUser with
        | error e => exact Or.inl rfl
        | ok uid =>
          cases hu : env.updateProfile with
          | some e => exact Or.inl rfl
          | none =>
            cases hs : env.setDoc with
            | some e => exact Or.inl rfl
            | none => exact Or.inr ⟨uid, rfl, rfl⟩
    refine ⟨?_, ?_, ?_⟩
    · intro i r hi
      rcases hcases with h | ⟨uid, hc, h⟩
      · rw [h]; exact hi
      · rw [h]
        have hne : i ≠ uid := by
          intro he
          rw [he, hnew uid hc] at hi
          cases hi
        rw [docGet_docSet_ne _ _ _ _ hne]
        exact hi
    · intro hch
      rcases hcases with h | ⟨uid, hc, _⟩
      · exact absurd h hch
      · exact ⟨uid, hc, hnew uid hc⟩
    · intro uid h1 h2 h3 hc hu hs
      have hf : (!truthy st.email || !truthy st.password || !truthy st.username) = false := by
        simp [truthy, h1, h2, h3]
      have h : (signupHandler env w st).1.users =
          docSet w.users uid (signupRecord uid st) := by
        simp [signupHandler, hf, hc, hu, hs, World.call]
      rw [h]
      exact ⟨docSet_of_absent _ _ _ (hnew uid hc), docGet_docSet_self _ _ _⟩

/-- C13: a returning user of the popup, and a new user of the form. -/
theorem registration_seeds_witness :
    (signInWithGoogle registersAsU1 sampleWorld sampleForm).1.users = sampleWorld.users ∧
    (∀ uid, registersAsU3.createUser = .ok uid → docGet sampleWorld.users uid = none) ∧
    (signupHandler registersAsU3 sampleWorld sampleForm).1.users =
      sampleWorld.users ++ [("u3", signupRecord "u3" sampleForm)] ∧
    docGet (signupHandler registersAsU3 sampleWorld sampleForm).1.users "u1" =
      docGet sampleWorld.users "u1" :=
  have hnew : ∀ uid, registersAsU3.createUser = .ok uid →
      docGet sampleWorld.users uid = none := by
    intro uid h
    have hu : uid = "u3" := by
      have h1 : (Except.ok "u3" : Except Failure String) = .ok uid := h
      cases h1; rfl
    rw [hu]; decide
  ⟨((registration_seeds sampleWorld sampleForm).1 registersAsU1).1 _ rfl (by decide),
   hnew,
   (((registration_seeds sampleWorld sampleForm).2 registersAsU3 hnew).2.2 "u3" (by decide)
      (by decide) (by decide) rfl rfl rfl).1,
   ((registration_seeds sampleWorld sampleForm).2 registersAsU3 hnew).1 "u1" _ (by decide)⟩

end Register

/-! ## The confirmation of an unfollow -/

namespace UserProfile

/-- C14: when `isLoggedIn()` is false, `handleFollow` navigates to '/login' and does
nothing else: the state (`isFollowing`, the counters, the confirmation, the error) is
as it was, the only call recorded is the navigation (neither `followUser` nor
`unfollowUser`), and both stores are as they were. -/
theorem handleFollow_signed_out (env : Env) (w : World) (st : State)
    (hl : env.loggedIn = false) :
    (handleFollow env w st).2 = st ∧
    (handleFollow env w st).1.calls = w.calls ++ [Call.routerPush "/login"] ∧
    (handleFollow env w st).1.db = w.db ∧
    (handleFollow env w st).1.objects = w.objects := by
  have h : handleFollow env w st = (w.call (.routerPush "/login"), st) := by
    simp [handleFollow, hl]
  rw [h]
  exact ⟨rfl, rfl, rfl, rfl⟩

/-- C14 at the sample page with nobody signed in. -/
theorem handleFollow_signed_out_witness :
    (handleFollow signedOutEnv sampleWorld samplePublicProfile).2 = samplePublicProfile ∧
    (handleFollow signedOutEnv sampleWorld samplePublicProfile).1.calls =
      [Call.routerPush "/login"] :=
  ⟨(handleFollow_signed_out signedOutEnv sampleWorld samplePublicProfile rfl).1,
   (handleFollow_signed_out signedOutEnv sampleWorld samplePublicProfile rfl).2.1⟩

/-- C15: when the signed-in viewer is following, `handleFollow` only opens the
confirmation (the world and the rest of the state are as they were), and a following
`cancelUnfollow` closes it again with nothing else changed: `isFollowing` is still
true, the counters are as they were, no call was made, and the page is exactly in the
state before `handleFollow` when the confirmation was closed then. -/
theorem confirm_then_cancel (e1 e2 : Env) (w : World) (st : State)
    (hl : e1.loggedIn = true) (hf : st.isFollowing = some true) :
    handleFollow e1 w st = (w, { st with showUnfollowConfirm := true }) ∧
    cancelUnfollow e2 (handleFollow e1 w st).1 (handleFollow e1 w st).2 =
      (w, { st with showUnfollowConfirm := false }) ∧
    (cancelUnfollow e2 (handleFollow e1 w st).1 (handleFollow e1 w st).2).2.isFollowing =
      some true ∧
    (cancelUnfollow e2 (handleFollow e1 w st).1 (handleFollow e1 w st).2).2.followersCount =
      st.followersCount ∧
    (cancelUnfollow e2 (handleFollow e1 w st).1 (handleFollow e1 w st).2).2.followingCount =
      st.followingCount ∧
    (st.showUnfollowConfirm = false →
      cancelUnfollow e2 (handleFollow e1 w st).1 (handleFollow e1 w st).2 = (w, st)) := by
  have h1 : handleFollow e1 w st = (w, { st with showUnfollowConfirm := true }) := by
    simp [handleFollow, hl, hf]
  rw [h1]
  refine ⟨rfl, rfl, hf, rfl, rfl, ?_⟩
  intro hc
  cases st
  simp only [cancelUnfollow] at hc ⊢
  simp_all

/-- C15 at the sample page with the viewer following. -/
theorem confirm_then_cancel_witness :
    cancelUnfollow sampleEnv
      (handleFollow sampleEnv followingWorld
        { samplePublicProfile with isFollowing := some true }).1
      (handleFollow sampleEnv followingWorld
        { samplePublicProfile with isFollowing := some true }).2 =
      (followingWorld, { samplePublicProfile with isFollowing := some true }) :=
  (confirm_then_cancel sampleEnv sampleEnv followingWorld
    { samplePublicProfile with isFollowing := some true } rfl rfl).2.2.2.2.2 rfl

end UserProfile

/-! ## Repeated payloads and partial failures of publishing -/

namespace BlogEditor

/-- The externalization of a markup with two embedded images, both uploads succeeding:
the returned markup, the calls made and the objects stored. -/
theorem externalize_two (env : Env) (w : World) (html : String) (p q : List Char)
    (hs : dataSrcs html.data = [p, q])
    (hcount : countOcc dataImage html.data = 2)
    (hu0 : env.uploadStringFails 0 = false) (hg0 : env.getDownloadURLFails 0 = false)
    (hu1 : env.uploadStringFails 1 = false) (hg1 : env.getDownloadURLFails 1 = false)
    (hd0 : '$' ∉ (env.urlOf ("images/" ++ toString (env.now 0))).data)
    (hd1 : '$' ∉ (env.urlOf ("images/" ++ toString (env.now 1))).data)
    (ho0 : occursIn dataImage (env.urlOf ("images/" ++ toString (env.now 0))).data = false)
    (ho1 : occursIn dataImage (env.urlOf ("images/" ++ toString (env.now 1))).data = false) :
    (∃ a b c, html.data = a ++ (p ++ (b ++ (q ++ c))) ∧
      (processContentImages env w html).2.2.data =
        a ++ ((env.urlOf ("images/" ++ toString (env.now 0))).data ++
          (b ++ ((env.urlOf ("images/" ++ toString (env.now 1))).data ++ c)))) ∧
    (processContentImages env w html).2.1 = none ∧
    (processContentImages env w html).1.calls =
      w.calls ++ [Call.uploadString ("images/" ++ toString (env.now 0)),
        Call.getDownloadURL ("images/" ++ toString (env.now 0)),
        Call.uploadString ("images/" ++ toString (env.now 1)),
        Call.getDownloadURL ("images/" ++ toString (env.now 1))] ∧
    (processContentImages env w html).1.objects =
      docSet (docSet w.objects ("images/" ++ toString (env.now 0)) (String.mk p))
        ("images/" ++ toString (env.now 1)) (String.mk q) := by
  have hp : startsWith dataImage p = true :=
    mem_dataSrcs_startsWith html.data p (by rw [hs]; simp)
  have hq : startsWith dataImage q = true :=
    mem_dataSrcs_startsWith html.data q (by rw [hs]; simp)
  obtain ⟨x, y1, hx, hy1⟩ := scanSrcs_data html.data 0 p [q] hs
  obtain ⟨m, y, hm, _⟩ := scanSrcs_data y1 0 q [] hy1
  have hhtml : html.data =
      (x ++ ['"']) ++ (p ++ (('"' :: m ++ ['"']) ++ (q ++ '"' :: y))) := by
    rw [hx, hm]; simp
  rw [hhtml] at hcount
  obtain ⟨hr, _⟩ := replace_two x p m q y _ _ hp hq hcount hd0 hd1 ho0 ho1
  rw [processContentImages_eq, hs]
  simp only [processLoop, hp, hq, hu0, hg0, hu1, hg1, if_true]
  refine ⟨⟨x ++ ['"'], '"' :: m ++ ['"'], '"' :: y, hhtml, ?_⟩, rfl, ?_, rfl⟩
  · rw [hhtml]; exact hr
  · simp [World.call]

/-- C16, as the claim states it, fails: the loop visits both image tags, uploads the
payload once for each and replaces one occurrence each time, so with every upload
succeeding the second occurrence gets the reference of the second upload, not the one
computed for the first occurrence. Nor is every image tag replaced: when the first tag
has a `data-src` attribute behind its `src`, the regular expression captures the payload
once only, and the one upload replaces the first occurrence and leaves the second tag
embedded; when the payload also occurs as text ahead of the tags, the two uploads
replace the text and the first tag and leave the second tag embedded. -/
theorem same_payload_counterexample :
    dataSrcs sameImageTwice.data =
      ["data:image/png;base64,AAAA".data, "data:image/png;base64,AAAA".data] ∧
    sampleEnv.reliable ∧
    (processContentImages sampleEnv sampleWorld sameImageTwice).2.2 =
      "<img src=\"https://cdn/images/1000\"><img src=\"https://cdn/images/1001\">" ∧
    sampleEnv.urlOf ("images/" ++ toString (sampleEnv.now 0)) = "https://cdn/images/1000" ∧
    (processContentImages sampleEnv sampleWorld sameImageTwice).2.2 ≠
      "<img src=\"https://cdn/images/1000\"><img src=\"https://cdn/images/1000\">" ∧
    dataSrcs sameImageDataSrc.data = ["data:image/png;base64,AAAA".data] ∧
    countOcc dataImage sameImageDataSrc.data = 2 ∧
    (processContentImages sampleEnv sampleWorld sameImageDataSrc).2.2 =
      "<img src=\"https://cdn/images/1000\" data-src=\"x.png\"><img src=\"data:image/png;base64,AAAA\">" ∧
    dataSrcs textThenSameImage.data =
      ["data:image/png;base64,AAAA".data, "data:image/png;base64,AAAA".data] ∧
    countOcc dataImage textThenSameImage.data = 3 ∧
    (processContentImages sampleEnv sampleWorld textThenSameImage).2.2 =
      "<p>https://cdn/images/1000</p><img src=\"https://cdn/images/1001\"><img src=\"data:image/png;base64,AAAA\">" := by
  refine ⟨by decide, ?_, by decide, by decide, by decide, by decide, by decide, by decide,
    by decide, by decide, by decide⟩
  simp [Env.reliable, sampleEnv]

/-- C16, amended: for a markup in which the values the regular expression of the loop
captures that begin with `data:image/` are the same payload `p` twice, and in which the
text `data:image/` occurs twice and no more, when both uploads and both lookups of the
download URL succeed, the download URLs holding neither a dollar sign nor the text
`data:image/`, `processContentImages` uploads the payload twice, once under the path of
each upload, and replaces the first occurrence by the download URL of the first upload
and the second occurrence by the download URL of the second upload. -/
theorem processContentImages_same_payload (env : Env) (w : World) (html : String)
    (p : List Char)
    (hs : dataSrcs html.data = [p, p])
    (hcount : countOcc dataImage html.data = 2)
    (hu0 : env.uploadStringFails 0 = false) (hg0 : env.getDownloadURLFails 0 = false)
    (hu1 : env.uploadStringFails 1 = false) (hg1 : env.getDownloadURLFails 1 = false)
    (hd0 : '$' ∉ (env.urlOf ("images/" ++ toString (env.now 0))).data)
    (hd1 : '$' ∉ (env.urlOf ("images/" ++ toString (env.now 1))).data)
    (ho0 : occursIn dataImage (env.urlOf ("images/" ++ toString (env.now 0))).data = false)
    (ho1 : occursIn dataImage (env.urlOf ("images/" ++ toString (env.now 1))).data = false) :
    (∃ a b c, html.data = a ++ (p ++ (b ++ (p ++ c))) ∧
      (processContentImages env w html).2.2.data =
        a ++ ((env.urlOf ("images/" ++ toString (env.now 0))).data ++
          (b ++ ((env.urlOf ("images/" ++ toString (env.now 1))).data ++ c)))) ∧
    (processContentImages env w html).1.calls =
      w.calls ++ [Call.uploadString ("images/" ++ toString (env.now 0)),
        Call.getDownloadURL ("images/" ++ toString (env.now 0)),
        Call.uploadString ("images/" ++ toString (env.now 1)),
        Call.getDownloadURL ("images/" ++ toString (env.now 1))] ∧
    (processContentImages env w html).1.objects =
      docSet (docSet w.objects ("images/" ++ toString (env.now 0)) (String.mk p))
        ("images/" ++ toString (env.now 1)) (String.mk p) := by
  have h := externalize_two env w html p p hs hcount hu0 hg0 hu1 hg1 hd0 hd1 ho0 ho1
  exact ⟨h.1, h.2.2.1, h.2.2.2⟩

/-- C16, amended, at the markup with the same image twice. -/
theorem processContentImages_same_payload_witness :
    countOcc dataImage sameImageTwice.data = 2 ∧
    (processContentImages sampleEnv sampleWorld sameImageTwice).1.objects =
      [("images/1000", "data:image/png;base64,AAAA"),
       ("images/1001", "data:image/png;base64,AAAA")] :=
  ⟨by decide,
   (processContentImages_same_payload sampleEnv sampleWorld sameImageTwice
      "data:image/png;base64,AAAA".data (by decide) (by decide) rfl rfl rfl rfl
      (by decide) (by decide) (by decide) (by decide)).2.2⟩

/-- A failed delete after a successful write of the post: the post stays written, the
draft stays, the editor keeps its content and shows the submit error. -/
theorem handleSubmit_delete_fails (env : Env) (w : World) (st : State) (d uid : String)
    (hu : env.currentUser = some uid) (ha : env.addDocFails = false)
    (hdel : env.deleteDocFails = true) (hd : st.draftId = some d) (hne : d ≠ "") :
    (handleSubmit env w st).1.blogs =
      w.blogs ++ [(autoId w.blogs,
        { title := st.title, content := (processContentImages env w st.content).2.2,
          hashtags := st.hashtags, userId := uid, timestamp := env.newDate })] ∧
    (handleSubmit env w st).1.drafts = w.drafts ∧
    (handleSubmit env w st).2.error = "Failed to submit blog. Please try again." ∧
    (handleSubmit env w st).2.title = st.title ∧
    (handleSubmit env w st).2.content = st.content := by
  have ht : truthy d = true := (truthy_iff d).mpr hne
  simp only [handleSubmit, hu, ha, hdel, hd, ht, World.call, docAdd, if_true]
  refine ⟨?_, ?_, rfl, ?_, ?_⟩
  · simp [processContentImages_blogs]
  · simp [processContentImages_drafts]
  · cases (processContentImages env w st.content).2.1 <;> rfl
  · cases (processContentImages env w st.content).2.1 <;> rfl

/-- C17: there is a run of `handleSubmit`, opened from the stored draft `d`, in which the
write of the post succeeds and the delete of the draft, attempted after it, fails;
afterwards the `blogs` collection holds the new post, the draft keyed by `d` is still
there, unchanged, and the error shown is 'Failed to submit blog. Please try again.'. -/
theorem handleSubmit_post_and_draft :
    ∃ (env : Env) (w : World) (st : State) (d uid : String) (post : PostData),
      env.currentUser = some uid ∧ env.addDocFails = false ∧ env.deleteDocFails = true ∧
      st.draftId = some d ∧ d ∈ docIds w.drafts ∧
      (handleSubmit env w st).1.blogs = w.blogs ++ [(autoId w.blogs, post)] ∧
      post.title = st.title ∧ post.userId = uid ∧
      (handleSubmit env w st).1.calls =
        w.calls ++ [Call.addDoc "blogs", Call.deleteDoc "drafts" d] ∧
      docGet (handleSubmit env w st).1.drafts d = docGet w.drafts d ∧
      docGet (handleSubmit env w st).1.drafts d ≠ none ∧
      (handleSubmit env w st).2.error = "Failed to submit blog. Please try again." := by
  refine ⟨deleteFails, sampleWorld, sampleEditor, "d1", "u1",
    { title := "Hello", content := "<p>text</p>", hashtags := ["#a"], userId := "u1",
      timestamp := 2000 }, rfl, rfl, rfl, rfl, by decide, ?_, rfl, rfl, by decide, ?_, ?_, ?_⟩
  · exact (handleSubmit_delete_fails deleteFails sampleWorld sampleEditor "d1" "u1" rfl rfl rfl
      rfl (by decide)).1
  · rw [(handleSubmit_delete_fails deleteFails sampleWorld sampleEditor "d1" "u1" rfl rfl rfl
      rfl (by decide)).2.1]
  · rw [(handleSubmit_delete_fails deleteFails sampleWorld sampleEditor "d1" "u1" rfl rfl rfl
      rfl (by decide)).2.1]
    decide
  · decide

end BlogEditor

/-! ## Publishing and saving after a failed upload -/

theorem mem_dropWhile_of_not (p : Char → Bool) (l : List Char) (c : Char) (hc : c ∈ l)
    (hp : p c = false) : c ∈ l.dropWhile p := by
  induction l with
  | nil => cases hc
  | cons a t ih =>
    by_cases ha : p a = true
    · have hca : c ≠ a := fun e => by rw [e, ha] at hp; cases hp
      rcases List.mem_cons.mp hc with h | h
      · exact absurd h hca
      · simp only [List.dropWhile_cons, ha, if_true]; exact ih h
    · simp only [List.dropWhile_cons, ha]; exact hc

/-- A string with a character that is not white space does not trim to the empty
string. -/
theorem truthy_jsTrim (s : String) (c : Char) (hc : c ∈ s.data)
    (hw : isJsWhiteSpace c = false) : truthy (jsTrim s) = true := by
  have h1 := mem_dropWhile_of_not isJsWhiteSpace s.data c hc hw
  have h2 : c ∈ (s.data.dropWhile isJsWhiteSpace).reverse := List.mem_reverse.mpr h1
  have h3 := mem_dropWhile_of_not isJsWhiteSpace _ c h2 hw
  have h4 : c ∈ ((s.data.dropWhile isJsWhiteSpace).reverse.dropWhile isJsWhiteSpace).reverse :=
    List.mem_reverse.mpr h3
  rw [truthy_iff]
  intro he
  have : (jsTrim s).data = [] := by rw [he]
  simp only [jsTrim] at this
  rw [this] at h4
  cases h4

/-- A markup with an embedded image holds a quote and the scheme `data:image/`. -/
theorem embedded_image_in_markup (html : List Char) (k : Nat)
    (hk : k < (dataSrcs html).length) :
    '"' ∈ html ∧ occursIn dataImage html = true := by
  cases hs : dataSrcs html with
  | nil => rw [hs] at hk; cases hk
  | cons p l =>
    have hp : startsWith dataImage p = true :=
      BlogEditor.mem_dataSrcs_startsWith html p (by rw [hs]; simp)
    obtain ⟨x, y, hx, _⟩ := scanSrcs_data html 0 p l hs
    constructor
    · rw [hx]; simp
    · have hp2 := eq_append_of_startsWith _ _ hp
      have : html = (x ++ ['"']) ++ dataImage ++ (p.drop dataImage.length ++ '"' :: y) := by
        rw [hx]
        conv_lhs => rw [hp2]
        simp
      rw [this]
      exact occursIn_append_self _ _ _

namespace BlogEditor

/-- C19, as the claim states it, fails when nobody is signed in and when the write to
the store fails. The upload of the second embedded image of the editor fails. With
nobody signed in and every write succeeding, `handleSubmit` raises at
`auth.currentUser.uid` and adds no post, and `handleSaveDraft` leaves the drafts as they
were. With user `u1` signed in and the writes failing, no post is added and the drafts
are as they were. -/
theorem upload_failure_signed_out :
    (dataSrcs imageEditor.content.data).length = 2 ∧
    (signedOutUploadFails.uploadStringFails 1 = true ∧
      signedOutUploadFails.currentUser = none ∧
      signedOutUploadFails.addDocFails = false ∧
      signedOutUploadFails.updateDocFails = false ∧
      (handleSubmit signedOutUploadFails sampleWorld imageEditor).1.blogs = [] ∧
      (handleSubmit signedOutUploadFails sampleWorld imageEditor).2.error =
        "Failed to submit blog. Please try again." ∧
      (handleSaveDraft signedOutUploadFails sampleWorld imageEditor).1.drafts =
        sampleWorld.drafts ∧
      (handleSaveDraft signedOutUploadFails sampleWorld imageEditor).2.error =
        "Failed to save draft. Please try again.") ∧
    (uploadAndWriteFail.uploadStringFails 1 = true ∧
      uploadAndWriteFail.currentUser = some "u1" ∧
      uploadAndWriteFail.addDocFails = true ∧
      uploadAndWriteFail.updateDocFails = true ∧
      (handleSubmit uploadAndWriteFail sampleWorld imageEditor).1.blogs = [] ∧
      (handleSaveDraft uploadAndWriteFail sampleWorld imageEditor).1.drafts =
        sampleWorld.drafts) := by
  decide

/-- C19, amended: a failed image upload does not abort publishing or saving. When a user
is signed in and the upload of an embedded image of the content (or the lookup of its
download URL) fails, the content still holds its embedded `data:image/` payloads and,
the write to the store not failing, `handleSubmit` adds a post whose content is the
markup of the editor as it is, and `handleSaveDraft` writes a draft whose content is
that markup: a new draft when the editor has no draft identifier, the draft keyed by `d`
when it has the identifier `d` of a stored draft. -/
theorem upload_failure_does_not_abort (env : Env) (w : World) (st : State) (uid : String)
    (k : Nat) (hu : env.currentUser = some uid)
    (hk : k < (dataSrcs st.content.data).length)
    (hf : env.uploadStringFails k = true ∨ env.getDownloadURLFails k = true) :
    occursIn dataImage st.content.data = true ∧
    (env.addDocFails = false →
      (handleSubmit env w st).1.blogs =
        w.blogs ++ [(autoId w.blogs,
          { title := st.title, content := st.content, hashtags := st.hashtags,
            userId := uid, timestamp := env.newDate })]) ∧
    (env.addDocFails = false → truthyOpt st.draftId = false →
      (handleSaveDraft env w st).1.drafts =
        w.drafts ++ [(autoId w.drafts,
          { title := st.title, content := st.content, hashtags := st.hashtags,
            userId := uid, timestamp := env.newDate })]) ∧
    (∀ d, st.draftId = some d → d ≠ "" → d ∈ docIds w.drafts → env.updateDocFails = false →
      docGet (handleSaveDraft env w st).1.drafts d =
        some { title := st.title, content := st.content, hashtags := st.hashtags,
               userId := uid, timestamp := env.newDate }) := by
  obtain ⟨hquote, hocc⟩ := embedded_image_in_markup st.content.data k hk
  have hloop := processLoop_failure env st.content.data (imgSrcs st.content.data) 0 w
    st.content.data k (Nat.zero_le _) (by simpa [dataSrcs] using hk) hf
  have hres : (processContentImages env w st.content).2.2 = st.content := by
    simp [processContentImages, hloop]
  have hcheck : (!truthy (jsTrim st.title) && !truthy (jsTrim st.content) &&
      st.hashtags.length == 0) = false := by
    simp [truthy_jsTrim st.content '"' hquote (by decide)]
  refine ⟨hocc, ?_, ?_, ?_⟩
  · intro ha
    cases hd : st.draftId with
    | none =>
      simp [handleSubmit, hu, ha, hd, World.call, docAdd, processContentImages_blogs, hres]
    | some d =>
      by_cases ht : truthy d = true
      · cases hdel : env.deleteDocFails <;>
          simp [handleSubmit, hu, ha, hd, ht, hdel, World.call, docAdd,
            processContentImages_blogs, hres]
      · simp [handleSubmit, hu, ha, hd, ht, World.call, docAdd, processContentImages_blogs,
          hres]
  · intro ha hno
    cases hd : st.draftId with
    | none =>
      simp [handleSaveDraft, hcheck, hu, hd, ha, World.call, docAdd,
        processContentImages_drafts, hres]
    | some d =>
      rw [hd] at hno
      simp only [truthyOpt] at hno
      simp [handleSaveDraft, hcheck, hu, hd, hno, ha, World.call, docAdd,
        processContentImages_drafts, hres]
  · intro d hd hne hmem hupd
    have ht : truthy d = true := (truthy_iff d).mpr hne
    have h : (handleSaveDraft env w st).1.drafts =
        w.drafts.map (fun e => if e.1 == d then (e.1,
          ({ title := st.title, content := st.content, hashtags := st.hashtags,
             userId := uid, timestamp := env.newDate } : PostData)) else e) := by
      simp only [handleSaveDraft, hcheck, hu, hd, ht, hupd, World.call]
      simp [docUpdate_of_mem _ _ _ hmem, processContentImages_drafts, hres]
    rw [h]
    obtain ⟨x, hx⟩ := docGet_isSome_of_mem w.drafts d hmem
    have := docGet_map_update w.drafts d d (fun _ =>
      ({ title := st.title, content := st.content, hashtags := st.hashtags,
         userId := uid, timestamp := env.newDate } : PostData))
    simp only [if_true, hx, Option.map_some'] at this
    exact this

/-- C19, amended, at the editor holding two embedded images, the second upload
failing. -/
theorem upload_failure_does_not_abort_witness :
    (dataSrcs imageEditor.content.data).length = 2 ∧
    (handleSubmit secondUploadFails sampleWorld imageEditor).1.blogs =
      [("A", { title := "Hello", content := twoImages, hashtags := ["#a"], userId := "u1",
               timestamp := 2000 })] ∧
    docGet (handleSaveDraft secondUploadFails sampleWorld imageEditor).1.drafts "d1" =
      some { title := "Hello", content := twoImages, hashtags := ["#a"], userId := "u1",
             timestamp := 2000 } :=
  ⟨by decide,
   (upload_failure_does_not_abort secondUploadFails sampleWorld imageEditor "u1" 1 rfl
      (by decide) (Or.inl rfl)).2.1 rfl,
   (upload_failure_does_not_abort secondUploadFails sampleWorld imageEditor "u1" 1 rfl
      (by decide) (Or.inl rfl)).2.2.2 "d1" rfl (by decide) (by decide) rfl⟩

end BlogEditor

/-! ## Loading a draft and saving it again -/

namespace BlogEditor

/-- A markup without embedded image is returned as it is. -/
theorem processContentImages_plain (env : Env) (w : World) (html : String)
    (h : dataSrcs html.data = []) :
    processContentImages env w html = (w, none, html) := by
  rw [processContentImages_eq, h]
  rfl

/-- The load of a stored draft: title and content go to the editor, the hashtags go,
stripped, to the `hashtagInput` state, and the `hashtags` state is not set. -/
theorem fetchDraft_found (env : Env) (w : World) (d : String) (r : PostData)
    (hne : d ≠ "") (hr : docGet w.drafts d = some r) :
    fetchDraft false env w (initialState (some d)) =
      (w.call (.getDoc "drafts" d),
       { initialState (some d) with title := r.title, content := r.content,
                                    hashtagInput := .tags (r.hashtags.map stripHash) }) := by
  have ht : truthy d = true := (truthy_iff d).mpr hne
  simp [fetchDraft, initialState, ht, World.call, hr]

/-- Loading a stored draft and saving it again writes its title and its content back
and an empty list of hashtags, whatever hashtags it had. -/
theorem load_then_save (env : Env) (w : World) (d uid : String) (r : PostData)
    (hne : d ≠ "") (hr : docGet w.drafts d = some r)
    (hu : env.currentUser = some uid) (hupd : env.updateDocFails = false)
    (hcheck : truthy (jsTrim r.title) = true ∨ truthy (jsTrim r.content) = true)
    (himg : dataSrcs r.content.data = []) :
    docGet (handleSaveDraft env (fetchDraft false env w (initialState (some d))).1
      (fetchDraft false env w (initialState (some d))).2).1.drafts d =
      some { title := r.title, content := r.content, hashtags := [], userId := uid,
             timestamp := env.newDate } := by
  have ht : truthy d = true := (truthy_iff d).mpr hne
  have hmem : d ∈ docIds w.drafts := by
    by_contra hn
    rw [docGet_eq_none_of_not_mem _ _ hn] at hr
    cases hr
  rw [fetchDraft_found env w d r hne hr]
  have hc : (!truthy (jsTrim r.title) && !truthy (jsTrim r.content) &&
      ([] : List String).length == 0) = false := by
    rcases hcheck with h | h <;> simp [h]
  have h : (handleSaveDraft env (w.call (.getDoc "drafts" d))
      { initialState (some d) with title := r.title, content := r.content,
                                   hashtagInput := .tags (r.hashtags.map stripHash) }).1.drafts =
      w.drafts.map (fun e => if e.1 == d then (e.1,
        ({ title := r.title, content := r.content, hashtags := [], userId := uid,
           timestamp := env.newDate } : PostData)) else e) := by
    simp only [handleSaveDraft, initialState, hc, hu, ht, hupd, World.call,
      processContentImages_plain _ _ _ himg]
    simp [docUpdate_of_mem _ _ _ hmem, setErrorIf]
  rw [h]
  have := docGet_map_update w.drafts d d (fun _ =>
    ({ title := r.title, content := r.content, hashtags := [], userId := uid,
       timestamp := env.newDate } : PostData))
  simp only [if_true, hr, Option.map_some'] at this
  exact this

/-- C20 fails on the code: the draft `d1` is stored with the hashtag `#a`; the load puts
the stripped hashtags into `hashtagInput` and leaves `hashtags` empty, and saving
without any edit writes the title and the content back with an empty hashtag list. -/
theorem load_then_save_drops_hashtags :
    docGet sampleWorld.drafts "d1" =
      some { title := "Old", content := "<p>old</p>", hashtags := ["#a"], userId := "u1",
             timestamp := 1 } ∧
    (fetchDraft false sampleEnv sampleWorld (initialState (some "d1"))).2.hashtags = [] ∧
    (fetchDraft false sampleEnv sampleWorld (initialState (some "d1"))).2.hashtagInput =
      .tags ["a"] ∧
    (handleSaveDraft sampleEnv
      (fetchDraft false sampleEnv sampleWorld (initialState (some "d1"))).1
      (fetchDraft false sampleEnv sampleWorld (initialState (some "d1"))).2).1.calls =
      [Call.getDoc "drafts" "d1", Call.updateDoc "drafts" "d1",
       Call.alert "Draft updated successfully!"] ∧
    docGet (handleSaveDraft sampleEnv
      (fetchDraft false sampleEnv sampleWorld (initialState (some "d1"))).1
      (fetchDraft false sampleEnv sampleWorld (initialState (some "d1"))).2).1.drafts "d1" =
      some { title := "Old", content := "<p>old</p>", hashtags := [], userId := "u1",
             timestamp := 2000 } := by
  decide

end BlogEditor

/-! ## The confirmation box over the events of the page -/

namespace UserProfile

/-- The load of a profile never touches the confirmation box. -/
theorem loadProfile_confirm (usernameParam currentUser : Option String)
    (failure : Option LoadFailure) (env : Env) (w : World) (st : State) :
    (loadProfile usernameParam currentUser failure env w st).2.showUnfollowConfirm =
      st.showUnfollowConfirm := by
  unfold loadProfile
  cases usernameParam with
  | none => rfl
  | some target =>
    simp only
    split
    · split
      · rfl
      · split
        · rfl
        · split
          · split
            · rfl
            · cases currentUser with
              | none => rfl
              | some viewer =>
                simp only
                split <;> rfl
          · rfl
    · rfl

/-- The three handlers of the buttons keep the confirmation box tied to following. -/
theorem handlers_keep_confirm (env : Env) (w : World) (st : State)
    (h : st.showUnfollowConfirm = true → st.isFollowing = some true) :
    ((handleFollow env w st).2.showUnfollowConfirm = true →
      (handleFollow env w st).2.isFollowing = some true) ∧
    ((handleUnfollow env w st).2.showUnfollowConfirm = true →
      (handleUnfollow env w st).2.isFollowing = some true) ∧
    ((cancelUnfollow env w st).2.showUnfollowConfirm = true →
      (cancelUnfollow env w st).2.isFollowing = some true) := by
  refine ⟨?_, ?_, ?_⟩
  · unfold handleFollow
    split
    · split
      · next hf => intro _; exact hf
      · split
        · exact h
        · exact h
        · simp only
          split
          · exact h
          · intro _; rfl
    · exact h
  · unfold handleUnfollow
    split
    · exact h
    · exact h
    · simp only
      split
      · exact h
      · intro hc; cases hc
  · intro hc; cases hc

/-- A run whose loads happen while the confirmation box is closed keeps the box tied to
following. -/
theorem run_keeps_confirm (events : List Event) :
    ∀ ws : World × State,
      (ws.2.showUnfollowConfirm = true → ws.2.isFollowing = some true) →
      loadsWhileClosed events ws →
      ((run events ws).2.showUnfollowConfirm = true →
        (run events ws).2.isFollowing = some true) := by
  induction events with
  | nil => intro ws h _; exact h
  | cons e es ih =>
    intro ws h hl
    show (run es (step ws e)).2.showUnfollowConfirm = true → _
    cases e with
    | load u c f env =>
      obtain ⟨hclosed, hrest⟩ := hl
      refine ih (step ws (.load u c f env)) ?_ hrest
      intro hc
      have := loadProfile_confirm u c f env ws.1 ws.2
      rw [hclosed] at this
      rw [show (step ws (.load u c f env)).2.showUnfollowConfirm = false from this] at hc
      cases hc
    | follow env => exact ih _ (handlers_keep_confirm env ws.1 ws.2 h).1 hl
    | unfollow env => exact ih _ (handlers_keep_confirm env ws.1 ws.2 h).2.1 hl
    | cancel env => exact ih _ (handlers_keep_confirm env ws.1 ws.2 h).2.2 hl

/-- C18, amended: in every state the page reaches from its initial state through loads
of a profile, presses of the Follow / Unfollow button and of the Yes and No buttons,
the backend calls succeeding or failing, provided every load runs while the
confirmation box is closed, `showUnfollowConfirm = true` implies `isFollowing = true`. -/
theorem confirm_only_while_following (events : List Event) (w : World)
    (hl : loadsWhileClosed events (w, initialState)) :
    (run events (w, initialState)).2.showUnfollowConfirm = true →
      (run events (w, initialState)).2.isFollowing = some true :=
  run_keeps_confirm events (w, initialState) (by intro h; cases h) hl

/-- C18, as the claim states it, fails: the load sets `isFollowing` anew and leaves
`showUnfollowConfirm` as it is. The viewer `u1`, following `u2`, opens the
confirmation; the session ends and the load runs again for nobody signed in: the
confirmation is still open and `isFollowing` is false. -/
theorem confirm_open_after_reload :
    (run [.load (some "bob") (some "u1") none sampleEnv, .follow sampleEnv]
      (followingWorld, initialState)).2.isFollowing = some true ∧
    (run [.load (some "bob") (some "u1") none sampleEnv, .follow sampleEnv]
      (followingWorld, initialState)).2.showUnfollowConfirm = true ∧
    (run [.load (some "bob") (some "u1") none sampleEnv, .follow sampleEnv,
        .load (some "bob") none none signedOutEnv]
      (followingWorld, initialState)).2.showUnfollowConfirm = true ∧
    (run [.load (some "bob") (some "u1") none sampleEnv, .follow sampleEnv,
        .load (some "bob") none none signedOutEnv]
      (followingWorld, initialState)).2.isFollowing = some false := by
  decide

/-- C18, amended, at a run that ends with the confirmation open: the viewer `u1`, who
follows `u2`, loads the profile and presses the button. -/
theorem confirm_only_while_following_witness :
    loadsWhileClosed [.load (some "bob") (some "u1") none sampleEnv, .follow sampleEnv]
      (followingWorld, initialState) ∧
    (run [.load (some "bob") (some "u1") none sampleEnv, .follow sampleEnv]
      (followingWorld, initialState)).2.showUnfollowConfirm = true ∧
    (run [.load (some "bob") (some "u1") none sampleEnv, .follow sampleEnv]
      (followingWorld, initialState)).2.isFollowing = some true :=
  ⟨⟨rfl, trivial⟩, by decide,
   confirm_only_while_following _ followingWorld ⟨rfl, trivial⟩ (by decide)⟩

end UserProfile

/-! ## The profile picture after a save -/

namespace Profile

/-- `handleSave` never sets the `profileImage` state nor the selected file. -/
theorem handleSave_profileImage (env : Env) (w : World) (st : State) :
    (handleSave env w st).2.profileImage = st.profileImage ∧
    (handleSave env w st).2.imageFile = st.imageFile := by
  unfold handleSave
  simp only
  split
  · exact ⟨rfl, rfl⟩
  · split
    · exact ⟨rfl, rfl⟩
    · split
      · exact ⟨rfl, rfl⟩
      · split
        · exact ⟨rfl, rfl⟩
        · split
          · exact ⟨rfl, rfl⟩
          · exact ⟨rfl, rfl⟩

/-- C21 fails on the code: a picture is chosen and saved, and the record gets its download
URL while the `profileImage` state keeps the old value (here the empty string), since
`handleSave` calls `setUser` and never `setProfileImage`; the form is opened again and
cancelled, which clears the selected file, and the next save writes the old value of
the state over the URL in the record. -/
theorem handleSave_stale_profileImage :
    (docGet savedWithPicture.1.users "u1").map (fun u => u.profileImage) =
      some (some "https://cdn/profileImages/u1/a.png") ∧
    savedWithPicture.2.isEditing = false ∧ savedWithPicture.2.error = "" ∧
    savedWithPicture.2.profileImage = "" ∧
    reopenedAndCancelled.2.imageFile = none ∧
    savedAgain.2.isEditing = false ∧ savedAgain.2.error = "" ∧
    (docGet savedAgain.1.users "u1").map (fun u => u.profileImage) = some (some "") := by
  decide

end Profile

/-! ## The hashtag list -/

namespace BlogEditor

/-- The hashtag built from a text is the text headed by `#`. -/
theorem hashtagOf_text (s : String) : (hashtagOf (.text s)).data = '#' :: s.data := rfl

/-- `addHashtag` after typing a text. -/
theorem addHashtag_text (env : Env) (w : World) (st : State) (input : String) :
    (applyHashtagOp env (w, st) (.add input)).2.hashtags =
      if input ≠ "" ∧ "#" ++ input ∉ st.hashtags then st.hashtags ++ ["#" ++ input]
      else st.hashtags := by
  simp only [applyHashtagOp, onHashtagInputChange, addHashtag, inputTruthy, hashtagOf]
  by_cases h1 : input = ""
  · simp [h1, truthy]
  · by_cases h2 : "#" ++ input ∈ st.hashtags
    · simp [h1, h2, truthy]
    · simp [h1, h2, truthy]

/-- `removeHashtag` filters the list. -/
theorem removeHashtag_hashtags (env : Env) (w : World) (st : State) (t : String) :
    (removeHashtag t env w st).2.hashtags = st.hashtags.filter (fun h => h != t) := rfl

/-- An operation keeps the list free of duplicates and its entries headed by `#`. -/
theorem applyHashtagOp_keeps (env : Env) (ws : World × State) (op : HashtagOp)
    (h : ws.2.hashtags.Nodup ∧ ∀ x ∈ ws.2.hashtags, x.data.head? = some '#') :
    (applyHashtagOp env ws op).2.hashtags.Nodup ∧
    ∀ x ∈ (applyHashtagOp env ws op).2.hashtags, x.data.head? = some '#' := by
  cases op with
  | add input =>
    rw [show ws = (ws.1, ws.2) from rfl, addHashtag_text]
    split
    · next hc =>
      constructor
      · rw [List.nodup_append]
        refine ⟨h.1, List.nodup_singleton _, ?_⟩
        intro a ha hb
        simp only [List.mem_singleton] at hb
        rw [hb] at ha
        exact hc.2 ha
      · intro x hx
        rcases List.mem_append.mp hx with hx | hx
        · exact h.2 x hx
        · simp only [List.mem_singleton] at hx
          rw [hx]; rfl
    · exact h
  | remove t =>
    show ((removeHashtag t env ws.1 ws.2).2.hashtags).Nodup ∧ _
    rw [removeHashtag_hashtags]
    exact ⟨h.1.filter _, fun x hx => h.2 x (List.mem_of_mem_filter hx)⟩

/-- So does a sequence of operations. -/
theorem applyHashtagOps_keeps (env : Env) (ops : List HashtagOp) :
    ∀ ws : World × State,
      (ws.2.hashtags.Nodup ∧ ∀ x ∈ ws.2.hashtags, x.data.head? = some '#') →
      (applyHashtagOps env ops ws).2.hashtags.Nodup ∧
      ∀ x ∈ (applyHashtagOps env ops ws).2.hashtags, x.data.head? = some '#' := by
  induction ops with
  | nil => intro ws h; exact h
  | cons op ops ih =>
    intro ws h
    exact ih _ (applyHashtagOp_keeps env ws op h)

/-- C22: from an empty hashtag list, after every sequence of operations (typing a text
and pressing Add, removing a hashtag), the list has no duplicate entries and every entry
begins with `#`. `addHashtag` with an empty input, or with an input whose form headed
by `#` is already in the list, changes nothing; otherwise it appends that form.
`removeHashtag(t)` leaves the entries other than `t`, in their order, so a list that
does not contain `t`, and touches nothing else. -/
theorem hashtag_list_invariant (env : Env) (w : World) (st : State)
    (hempty : st.hashtags = []) (ops : List HashtagOp) :
    ((applyHashtagOps env ops (w, st)).2.hashtags.Nodup ∧
      ∀ x ∈ (applyHashtagOps env ops (w, st)).2.hashtags, x.data.head? = some '#') ∧
    (∀ (w1 : World) (s1 : State),
      s1.hashtagInput = .text "" → addHashtag env w1 s1 = (w1, s1)) ∧
    (∀ (w1 : World) (s1 : State) (input : String),
      s1.hashtagInput = .text input → "#" ++ input ∈ s1.hashtags →
      addHashtag env w1 s1 = (w1, s1)) ∧
    (∀ (w1 : World) (s1 : State) (input : String),
      s1.hashtagInput = .text input → input ≠ "" → "#" ++ input ∉ s1.hashtags →
      (addHashtag env w1 s1).2.hashtags = s1.hashtags ++ ["#" ++ input]) ∧
    (∀ (w1 : World) (s1 : State) (t : String),
      (removeHashtag t env w1 s1).2.hashtags = s1.hashtags.filter (fun h => h != t) ∧
      t ∉ (removeHashtag t env w1 s1).2.hashtags ∧
      (∀ x ∈ s1.hashtags, x ≠ t → x ∈ (removeHashtag t env w1 s1).2.hashtags) ∧
      List.Sublist (removeHashtag t env w1 s1).2.hashtags s1.hashtags ∧
      (removeHashtag t env w1 s1).1 = w1) := by
  refine ⟨?_, ?_, ?_, ?_, ?_⟩
  · apply applyHashtagOps_keeps
    show st.hashtags.Nodup ∧ _
    rw [hempty]
    exact ⟨List.nodup_nil, fun x hx => by cases hx⟩
  · intro w1 s1 hi
    simp [addHashtag, hi, inputTruthy, truthy]
  · intro w1 s1 input hi hm
    simp [addHashtag, hi, hashtagOf, hm]
  · intro w1 s1 input hi hne hm
    simp [addHashtag, hi, hashtagOf, inputTruthy, truthy, hne, hm]
  · intro w1 s1 t
    refine ⟨rfl, ?_, ?_, ?_, rfl⟩
    · rw [removeHashtag_hashtags]; simp
    · intro x hx hne
      rw [removeHashtag_hashtags]
      simp [hx, hne]
    · rw [removeHashtag_hashtags]; exact List.filter_sublist _

/-- C22 at a sequence with a repeated input, an empty input and a removal. -/
theorem hashtag_list_invariant_witness :
    (applyHashtagOps sampleEnv [.add "a", .add "b", .add "a", .add "", .remove "#a", .add "c"]
      (sampleWorld, initialState none)).2.hashtags = ["#b", "#c"] ∧
    (applyHashtagOps sampleEnv [.add "a", .add "b", .add "a", .add "", .remove "#a", .add "c"]
      (sampleWorld, initialState none)).2.hashtags.Nodup :=
  ⟨by decide,
   (hashtag_list_invariant sampleEnv sampleWorld (initialState none) rfl
      [.add "a", .add "b", .add "a", .add "", .remove "#a", .add "c"]).1.1⟩

end BlogEditor

end Blog
